import Mathlib

/-!
# Ledger and settlement operations of the kernelcoin exchange

A shallow embedding of the trade operations of `db.go` and `routes.go`:
`getUserBalance`, `getTrade`, `createTrade`, `executeTrade`, `cancelTrade`
and the handlers `handleCreateTrade`, `handleExecuteTrade`,
`handleCancelTrade`; further down `handleWithdraw`, `getUserTrades`,
`hashPassword`, `verifyPassword` and `isValidAlphanumeric`.

Modelling conventions.

* The SQLite tables `balances`, `trades` and `trade_completions` are lists of
  rows in insertion order.  `SELECT ... WHERE key = ?` read through `QueryRow`
  is the first matching row, `UPDATE ... WHERE key = ?` rewrites every
  matching row, `INSERT` appends a row.
* `float64` / `REAL` amounts are rationals.  The operations are embedded
  twice.  `createTrade`, `executeTrade`, `cancelTrade`, `handleWithdraw` and
  the handlers over them compute with exact sums, products and quotients.
  `createTradeFl`, `executeTradeFl` and `handleWithdrawFl` take a rounding
  function and apply it wherever the source does float64 arithmetic; at the
  identity they are the exact operations, and at `float64`, the rounding of
  IEEE 754 binary64, they compute what the program computes as long as no
  intermediate result is an infinity.  Statements that need a property
  float64 arithmetic lacks (an exact quotient, a positive product of positive
  factors, a difference that stays above a small subtrahend) are made on the
  rounded operations.
* A quotient 0/0 is a NaN and makes the `INSERT` of `createTrade` fail.  A
  non-zero amount over 0 is an infinity and is stored by the program; the
  embedding has no infinity, and no statement below is about the price of
  such an order.
* The statements `UPDATE balances SET <col> = <col> ± ?` are built with
  `fmt.Sprintf` from a coin name.  The statement is executed when the name is
  one of the two columns `litecoin`, `kernelcoin` of the table, and is
  rejected as the database rejects a bare identifier that names no column
  (`dogecoin`).  What the database does with other texts in that place (the
  same names in other letter case, which it resolves to the column, or SQL
  pasted in place of a name, which it runs) is outside the embedding: every
  theorem below that goes through such a statement is about one of the two
  names or about `dogecoin`.
* A statement the database accepts always succeeds: storage faults are not
  modelled.
* A Go `error` result is an `Option Error` (`none` is `nil`) returned next to
  the database state the call leaves behind.  A nil pointer dereference
  (`getUserBalance` found no row and the caller reads a field of the result)
  ends the request with the state as it was.
-/

namespace Exchange

/-- Row of table `balances` (struct `Balance` of main.go). -/
structure Balance where
  UserID : Int
  Litecoin : ℚ
  Kernelcoin : ℚ
  deriving DecidableEq

/-- Row of table `trades`, with the columns `getTrade` reads. -/
structure Trade where
  id : Int
  seller_id : Int
  coin_selling : String
  amount_selling : ℚ
  coin_buying : String
  amount_buying : ℚ
  price_per_unit : ℚ
  status : String
  deriving DecidableEq

/-- Row of table `trade_completions`. -/
structure TradeCompletion where
  trade_id : Int
  buyer_id : Int
  quantity : ℚ
  deriving DecidableEq

/-- The tables of the server's database that the trade operations use. -/
structure Server where
  balances : List Balance
  trades : List Trade
  trade_completions : List TradeCompletion
  deriving DecidableEq

/-- Errors of the trade operations. -/
inductive Error where
  /-- Value of `sql.ErrNoRows`, from `QueryRow(...).Scan`. -/
  | noRows
  /-- An error built by `fmt.Errorf`. -/
  | msg (text : String)
  /-- Error returned by `db.Exec`: the database rejected the statement
  (unknown column) or could not carry the write out. -/
  | sqlExec
  /-- Nil pointer dereference; net/http recovers the handler's goroutine. -/
  | nilDeref
  deriving DecidableEq

/-- The selection `if coin == "litecoin" { b.Litecoin } else { b.Kernelcoin }`
that `handleCreateTrade` and `executeTrade` apply to a balance row. -/
def coinBalance (b : Balance) (coin : String) : ℚ :=
  if coin = "litecoin" then b.Litecoin else b.Kernelcoin

/-- Function `getUserBalance`: the row of `balances` for `userID`, if there is one. -/
def getUserBalance (s : Server) (userID : Int) : Option Balance :=
  s.balances.find? (fun b => b.UserID == userID)

/-- Function `getTrade`: the row of `trades` with the given id, if there is one. -/
def getTrade (s : Server) (tradeID : Int) : Option Trade :=
  s.trades.find? (fun t => t.id == tradeID)

/-- One row after `UPDATE balances SET col = col + delta` (`col` a column). -/
def Balance.adjust (b : Balance) (col : String) (delta : ℚ) : Balance :=
  if col = "litecoin" then { b with Litecoin := b.Litecoin + delta }
  else { b with Kernelcoin := b.Kernelcoin + delta }

/-- Rows of `balances` after `SET col = col + delta WHERE user_id = userID`. -/
def adjustRows (rows : List Balance) (col : String) (delta : ℚ) (userID : Int) :
    List Balance :=
  rows.map (fun b => if b.UserID = userID then b.adjust col delta else b)

/-- Statement `UPDATE balances SET col = col + delta WHERE user_id = userID`,
whose text is built with `fmt.Sprintf` from `col`.  For the two column names
`litecoin` and `kernelcoin` the statement updates that column.  Any other
text is answered with `none`, the error of `db.Exec`: that is what the
database does with a bare identifier that names no column of `balances`
(such as `dogecoin`: no such column).  Texts the database would accept in
another way (a column name in other letter case, SQL pasted in place of a
name) are outside this embedding, and no theorem below goes through this
statement with such a text. -/
def updateBalance (s : Server) (col : String) (delta : ℚ) (userID : Int) :
    Option Server :=
  if col = "litecoin" ∨ col = "kernelcoin" then
    some { s with balances := adjustRows s.balances col delta userID }
  else none

/-- Statement `UPDATE trades SET status = st WHERE id = tradeID`. -/
def updateStatus (s : Server) (tradeID : Int) (st : String) : Server :=
  let rows := s.trades.map
    (fun t => if t.id = tradeID then { t with status := st } else t)
  { s with trades := rows }

/-- Row id given by `AUTOINCREMENT` to the next row of `trades`. -/
def nextTradeID (s : Server) : Int :=
  (s.trades.map (fun t => t.id)).foldl max 0 + 1

/-- Function `createTrade`: inserts the order, then reserves the coins.  Returns the
state, the new trade id and the error of the last statement.

When both amounts are 0 the quotient is 0/0, a NaN, which the driver binds
as `NULL`: the `INSERT` violates `price_per_unit REAL NOT NULL` and the
function returns `0, err` before any write.  A non-zero amount divided by 0
is an infinity, which is stored; the rational quotient written here in its
place is 0, and no theorem below reads the price of such a row. -/
def createTrade (s : Server) (sellerID : Int) (coinSelling : String)
    (amountSelling : ℚ) (coinBuying : String) (amountBuying : ℚ) :
    Server × Int × Option Error :=
  let pricePerUnit :=
    if coinSelling = "kernelcoin" then amountBuying / amountSelling
    else amountSelling / amountBuying
  if amountSelling = 0 ∧ amountBuying = 0 then (s, 0, some Error.sqlExec)
  else
    let tradeID := nextTradeID s
    let row : Trade :=
      { id := tradeID, seller_id := sellerID, coin_selling := coinSelling,
        amount_selling := amountSelling, coin_buying := coinBuying,
        amount_buying := amountBuying, price_per_unit := pricePerUnit,
        status := "open" }
    let s1 : Server := { s with trades := s.trades ++ [row] }
    match updateBalance s1 coinSelling (-amountSelling) sellerID with
    | some s2 => (s2, tradeID, none)
    | none => (s1, tradeID, some Error.sqlExec)

/-- Local `buyerGives` of `executeTrade`: the coin the buyer pays with. -/
def buyerGives (trade : Trade) : String :=
  if trade.coin_buying = "kernelcoin" then "kernelcoin" else "litecoin"

/-- Local `buyerReceives` of `executeTrade`: the coin the buyer is paid in. -/
def buyerReceives (trade : Trade) : String :=
  if trade.coin_buying = "kernelcoin" then "litecoin" else "kernelcoin"

/-- Local `buyerGivesAmount` of `executeTrade`, with the exact product (the
rounded one is `buyerGivesAmountFl`). -/
def buyerGivesAmount (trade : Trade) (quantity : ℚ) : ℚ :=
  if trade.coin_buying = "kernelcoin" then quantity
  else quantity * trade.price_per_unit

/-- Local `buyerReceivesAmount` of `executeTrade`, with the exact product (the
rounded one is `buyerReceivesAmountFl`). -/
def buyerReceivesAmount (trade : Trade) (quantity : ℚ) : ℚ :=
  if trade.coin_buying = "kernelcoin" then quantity * trade.price_per_unit
  else quantity

/-- Statement `INSERT INTO trade_completions (trade_id, buyer_id, quantity)`. -/
def insertCompletion (s : Server) (tradeID buyerID : Int) (quantity : ℚ) : Server :=
  let row : TradeCompletion :=
    { trade_id := tradeID, buyer_id := buyerID, quantity := quantity }
  { s with trade_completions := s.trade_completions ++ [row] }

/-- Function `executeTrade`: fills order `tradeID` for `buyerID` with `quantity`. -/
def executeTrade (s : Server) (tradeID : Int) (buyerID : Int) (quantity : ℚ) :
    Server × Option Error :=
  match getTrade s tradeID with
  | none => (s, some Error.noRows)
  | some trade =>
    match getUserBalance s buyerID with
    | none => (s, some Error.nilDeref)
    | some buyerBal =>
      if coinBalance buyerBal (buyerGives trade) < buyerGivesAmount trade quantity then
        (s, some (Error.msg "insufficient balance"))
      else
        match getUserBalance s trade.seller_id with
        | none => (s, some Error.nilDeref)
        | some sellerBal =>
          if coinBalance sellerBal trade.coin_selling
              < buyerReceivesAmount trade quantity then
            (s, some (Error.msg "trade amount unavailable"))
          else
            match updateBalance s (buyerGives trade)
                (-buyerGivesAmount trade quantity) buyerID with
            | none => (s, some Error.sqlExec)
            | some s1 =>
              match updateBalance s1 (buyerReceives trade)
                  (buyerReceivesAmount trade quantity) buyerID with
              | none => (s1, some Error.sqlExec)
              | some s2 =>
                match updateBalance s2 (buyerGives trade)
                    (buyerGivesAmount trade quantity) trade.seller_id with
                | none => (s2, some Error.sqlExec)
                | some s3 =>
                  let s4 := insertCompletion s3 tradeID buyerID quantity
                  if quantity ≥ trade.amount_buying then
                    (updateStatus s4 tradeID "completed", none)
                  else (s4, none)

/-- Function `cancelTrade`: refunds the order's `amount_selling` and marks it
cancelled. -/
def cancelTrade (s : Server) (tradeID : Int) (userID : Int) :
    Server × Option Error :=
  match getTrade s tradeID with
  | none => (s, some Error.noRows)
  | some trade =>
    let sellerID := trade.seller_id
    if sellerID ≠ userID then
      (s, some (Error.msg "cannot cancel trade you don't own"))
    else
      let coinSelling := trade.coin_selling
      let amountSelling := trade.amount_selling
      match updateBalance s coinSelling amountSelling userID with
      | none => (s, some Error.sqlExec)
      | some s1 => (updateStatus s1 tradeID "cancelled", none)

/-- Number of rows `SELECT COUNT(*) FROM trades WHERE seller_id = ? AND
status = 'open'` counts. -/
def activeTradesCount (s : Server) (userID : Int) : Nat :=
  (s.trades.filter (fun t => t.seller_id == userID && t.status == "open")).length

/-- Handler `handleCreateTrade` for an authenticated session of `userID` and a decoded
request: the state after the request and either the error text of the JSON
reply or the id of the new trade. -/
def handleCreateTrade (s : Server) (userID : Int) (coinSelling : String)
    (amountSelling : ℚ) (coinBuying : String) (amountBuying : ℚ) :
    Server × Except String Int :=
  if activeTradesCount s userID ≥ 10 then
    (s, .error "Maximum of 10 active trades allowed per account")
  else
    match getUserBalance s userID with
    | none => (s, .error "User balance not found")
    | some balance =>
      if coinBalance balance coinSelling < amountSelling then
        (s, .error "Insufficient balance")
      else
        match createTrade s userID coinSelling amountSelling coinBuying amountBuying with
        | (s1, _, some _) => (s1, .error "Failed to create trade")
        | (s1, tradeID, none) => (s1, .ok tradeID)

/-- Sum of column `coin` over all rows of `balances`. -/
def totalBalance (s : Server) (coin : String) : ℚ :=
  (s.balances.map (fun b => if coin = "litecoin" then b.Litecoin else b.Kernelcoin)).sum

/-- Sum of `amount_selling` over the open orders that sell `coin`. -/
def totalReserved (s : Server) (coin : String) : ℚ :=
  ((s.trades.filter (fun t => t.status == "open" && t.coin_selling == coin)).map
    (fun t => t.amount_selling)).sum

/-- Scenario state of the specification: accounts 1 (A) and 2 (B) hold 1000
of each coin and there is no order (the rows `preseedDB` inserts). -/
def seeded : Server :=
  { balances := [⟨1, 1000, 1000⟩, ⟨2, 1000, 1000⟩], trades := [],
    trade_completions := [] }

/-- Scenario 1 of the specification: A has created the order that sells
100 kernelcoin for 100 litecoin (it gets id 1). -/
def scenario1 : Server :=
  (handleCreateTrade seeded 1 "kernelcoin" 100 "litecoin" 100).1

/-- Scenario 4 of the specification, before the cancellation: A has created
a second order, reserving 50 kernelcoin (it gets id 2). -/
def scenario4 : Server :=
  (handleCreateTrade scenario1 1 "kernelcoin" 50 "litecoin" 50).1

/-- Sum of the quantities of the fills recorded for order `tradeID`. -/
def filledQuantity (s : Server) (tradeID : Int) : ℚ :=
  ((s.trade_completions.filter (fun c => c.trade_id == tradeID)).map
    (fun c => c.quantity)).sum

deriving instance DecidableEq for Except

/-- JSON reply of `handleExecuteTrade` and `handleCancelTrade`. -/
inductive Reply where
  /-- Reply with `"success": true`. -/
  | success
  /-- Reply with `"success": false` and the text of the error. -/
  | failure (err : Error)
  /-- The handler's goroutine ended in a runtime error: no reply is written. -/
  | aborted
  deriving DecidableEq

/-- Reply the two handlers build from the `error` the operation returned. -/
def replyOf : Option Error → Reply
  | none => Reply.success
  | some Error.nilDeref => Reply.aborted
  | some err => Reply.failure err

/-- Handler `handleExecuteTrade` for an authenticated session of `userID` and
a decoded request `(trade_id, quantity)`: it passes both to `executeTrade`
without a check of its own. -/
def handleExecuteTrade (s : Server) (userID : Int) (tradeID : Int) (quantity : ℚ) :
    Server × Reply :=
  let r := executeTrade s tradeID userID quantity
  (r.1, replyOf r.2)

/-- Handler `handleCancelTrade` for an authenticated session of `userID` and a
decoded request `trade_id`. -/
def handleCancelTrade (s : Server) (userID : Int) (tradeID : Int) : Server × Reply :=
  let r := cancelTrade s tradeID userID
  (r.1, replyOf r.2)

/-- A decoded request to one of the three trade handlers, with the account of
the session that sent it. -/
inductive Request where
  | create (userID : Int) (coinSelling : String) (amountSelling : ℚ)
      (coinBuying : String) (amountBuying : ℚ)
  | fill (userID : Int) (tradeID : Int) (quantity : ℚ)
  | cancel (userID : Int) (tradeID : Int)

/-- State after the server has handled one request (the handlers run one at
a time under the server's lock). -/
def step (s : Server) : Request → Server
  | Request.create u cs as cb ab => (handleCreateTrade s u cs as cb ab).1
  | Request.fill u t q => (handleExecuteTrade s u t q).1
  | Request.cancel u t => (handleCancelTrade s u t).1

/-- State after the server has handled a sequence of requests in order. -/
def run (s : Server) (rs : List Request) : Server :=
  rs.foldl step s

/-- Scenario 5 of the specification: A has created ten orders of 100
kernelcoin each, all open, and has no kernelcoin left. -/
def scenario5 : Server :=
  run seeded (List.replicate 10 (Request.create 1 "kernelcoin" 100 "litecoin" 100))

/-! ### Withdrawals -/

/-- Row of table `users`, with the columns read by the handlers modelled
here (`NULL` is `none`). -/
structure UserRow where
  id : Int
  username : String
  litecoin_address : Option String
  kernelcoin_address : Option String
  litecoin_receive_address : Option String
  kernelcoin_receive_address : Option String
  deriving DecidableEq

/-- Row of table `transactions`, with the columns `handleWithdraw` writes. -/
structure Transaction where
  user_id : Int
  coin : String
  amount : ℚ
  type : String
  status : String
  tx_hash : Option String
  deriving DecidableEq

/-- The server as `handleWithdraw` uses it: the tables of `Server`, the tables
`users` and `transactions`, and the flag `noWallets`. -/
structure WalletServer where
  db : Server
  users : List UserRow
  transactions : List Transaction
  noWallets : Bool
  deriving DecidableEq

/-- JSON reply of `handleWithdraw`. -/
inductive WithdrawReply where
  /-- Error "We have to pay transaction fees to send coin. The smallest amount
  allowed to withdraw is 0.001". -/
  | belowMinimum
  /-- Error "Balance not found". -/
  | balanceNotFound
  /-- Error "Insufficient available balance". -/
  | insufficientAvailable
  /-- Error "Insufficient balance". -/
  | insufficientBalance
  /-- Error "No withdrawal address set". -/
  | noAddress
  /-- Error "Failed to send transaction". -/
  | sendFailed
  /-- Error "Failed to update balance". -/
  | updateFailed
  /-- Success, "Withdrawal sent", with the id of the transaction. -/
  | sent (txid : String)
  /-- Success, "Withdrawal request submitted". -/
  | submitted
  /-- Error "Wallet integration required for " followed by the coin. -/
  | walletRequired (coin : String)
  deriving DecidableEq

/-- Local `reserved` of `handleWithdraw`: the sum of `amount_selling` over the
open orders of `userID` whose `coin_selling` is the requested coin. -/
def reserved (s : Server) (userID : Int) (coin : String) : ℚ :=
  ((s.trades.filter (fun t => t.seller_id == userID && t.status == "open")).filter
    (fun t => t.coin_selling == coin)).foldl (fun acc t => acc + t.amount_selling) 0

/-- Query `SELECT <coin>_address FROM users WHERE id = ?` scanned into a
`sql.NullString`: `none` when the column does not exist, the row is missing
or the value is `NULL`.  The column is found for the four coin texts that
spell an address column of `users` exactly; as for `updateBalance`, texts the
database would resolve in another way (other letter case) are outside the
embedding, and the theorems below that read an address are about `litecoin`
and `kernelcoin`. -/
def withdrawalAddr (users : List UserRow) (userID : Int) (coin : String) :
    Option String :=
  match users.find? (fun u => u.id == userID) with
  | none => none
  | some u =>
    if coin = "litecoin" then u.litecoin_address
    else if coin = "kernelcoin" then u.kernelcoin_address
    else if coin = "litecoin_receive" then u.litecoin_receive_address
    else if coin = "kernelcoin_receive" then u.kernelcoin_receive_address
    else none

/-- Statement `INSERT INTO transactions (user_id, coin, amount, type, status,
tx_hash) VALUES (?, ?, ?, 'withdraw', 'completed', ?)`; without `tx_hash` in
the no-wallets branch. -/
def logWithdrawal (w : WalletServer) (userID : Int) (coin : String) (amount : ℚ)
    (txHash : Option String) : WalletServer :=
  let row : Transaction :=
    { user_id := userID, coin := coin, amount := amount, type := "withdraw",
      status := "completed", tx_hash := txHash }
  { w with transactions := w.transactions ++ [row] }

/-- Handler `handleWithdraw` for an authenticated session of `userID` and a
decoded request `(coin, amount)`.  The two wallet collaborators are the
parameters `sendToAddress` (kernelcoin RPC) and `payTo` (Electrum): given the
address and the amount they return a transaction id or an error. -/
def handleWithdraw (sendToAddress payTo : String → ℚ → Except String String)
    (w : WalletServer) (userID : Int) (coin : String) (amount : ℚ) :
    WalletServer × WithdrawReply :=
  if amount < 1 / 1000 then (w, WithdrawReply.belowMinimum)
  else
    match getUserBalance w.db userID with
    | none => (w, WithdrawReply.balanceNotFound)
    | some balance =>
      let userBalance := coinBalance balance coin
      let availableBalance := userBalance - reserved w.db userID coin
      if availableBalance < amount then (w, WithdrawReply.insufficientAvailable)
      else if userBalance < amount then (w, WithdrawReply.insufficientBalance)
      else
        match withdrawalAddr w.users userID coin with
        | none => (w, WithdrawReply.noAddress)
        | some address =>
          if address = "" then (w, WithdrawReply.noAddress)
          else if !w.noWallets && (coin == "kernelcoin" || coin == "litecoin") then
            match (if coin = "kernelcoin" then sendToAddress address amount
                   else payTo address amount) with
            | .error _ => (w, WithdrawReply.sendFailed)
            | .ok txid =>
              match updateBalance w.db coin (-amount) userID with
              | none => (w, WithdrawReply.updateFailed)
              | some db1 =>
                (logWithdrawal { w with db := db1 } userID coin amount (some txid),
                  WithdrawReply.sent txid)
          else if w.noWallets then
            match updateBalance w.db coin (-amount) userID with
            | none => (w, WithdrawReply.updateFailed)
            | some db1 =>
              (logWithdrawal { w with db := db1 } userID coin amount none,
                WithdrawReply.submitted)
          else (w, WithdrawReply.walletRequired coin)

/-- A server in wallet mode on the seeded tables: accounts 1 and 2 have both
withdrawal addresses set. -/
def walletDemo : WalletServer :=
  { db := seeded,
    users := [⟨1, "mike", some "LTCaddr1", some "KCNaddr1", none, none⟩,
              ⟨2, "bob", some "LTCaddr2", some "KCNaddr2", none, none⟩],
    transactions := [], noWallets := false }

/-! ### The pattern of `isValidAlphanumeric` -/

/-- Regular expressions, as far as the pattern `^[a-zA-Z0-9]+$` needs them. -/
inductive Regex where
  /-- Matches no text. -/
  | empty
  /-- Matches the empty text. -/
  | eps
  /-- Character class given by its ranges, `[a-zA-Z0-9]` being
  `cls [('a', 'z'), ('A', 'Z'), ('0', '9')]`. -/
  | cls (ranges : List (Char × Char))
  /-- Concatenation. -/
  | cat (r₁ r₂ : Regex)
  /-- Alternation. -/
  | alt (r₁ r₂ : Regex)
  /-- Zero or more repetitions. -/
  | star (r : Regex)

/-- Whether a character lies in one of the ranges of a class. -/
def inRanges (ranges : List (Char × Char)) (c : Char) : Bool :=
  ranges.any (fun r => decide (r.1 ≤ c) && decide (c ≤ r.2))

/-- One or more repetitions, the operator `+`. -/
def Regex.plus (r : Regex) : Regex :=
  Regex.cat r (Regex.star r)

/-- Whether the expression matches the empty text. -/
def Regex.nullable : Regex → Bool
  | Regex.empty => false
  | Regex.eps => true
  | Regex.cls _ => false
  | Regex.cat r₁ r₂ => r₁.nullable && r₂.nullable
  | Regex.alt r₁ r₂ => r₁.nullable || r₂.nullable
  | Regex.star _ => true

/-- The expression for what may follow after the character `c` was read. -/
def Regex.deriv (c : Char) : Regex → Regex
  | Regex.empty => Regex.empty
  | Regex.eps => Regex.empty
  | Regex.cls ranges => if inRanges ranges c then Regex.eps else Regex.empty
  | Regex.cat r₁ r₂ =>
    if r₁.nullable then Regex.alt (Regex.cat (r₁.deriv c) r₂) (r₂.deriv c)
    else Regex.cat (r₁.deriv c) r₂
  | Regex.alt r₁ r₂ => Regex.alt (r₁.deriv c) (r₂.deriv c)
  | Regex.star r => Regex.cat (r.deriv c) (Regex.star r)

/-- Whether the expression matches the whole text. -/
def Regex.fullMatch (r : Regex) (text : List Char) : Bool :=
  (text.foldl (fun r c => r.deriv c) r).nullable

/-- Function `isValidAlphanumeric`: `regexp.MatchString("^[a-zA-Z0-9]+$", s)`.
Without the flag `m` the anchors `^` and `$` of Go's syntax match only at the
beginning and at the end of the text, so the text contains a match exactly
when the whole text matches `[a-zA-Z0-9]+`. -/
def isValidAlphanumeric (s : String) : Bool :=
  (Regex.plus (Regex.cls [('a', 'z'), ('A', 'Z'), ('0', '9')])).fullMatch s.toList

/-! ### Password hashes

Go strings and byte slices are lists of characters and of byte values.  The
library functions `base64.StdEncoding.EncodeToString`,
`base64.StdEncoding.DecodeString` and `argon2.IDKey` (with the fixed
parameters 1, 64*1024, 4, 32) are the fields of a `Library`; the random salt
`generateSalt` reads is a parameter of `hashPassword`. -/

/-- The library functions `hashPassword` and `verifyPassword` call. -/
structure Library where
  /-- Function `base64.StdEncoding.EncodeToString`. -/
  encodeToString : List Nat → List Char
  /-- Function `base64.StdEncoding.DecodeString`: the bytes and whether the
  error is non-nil. -/
  decodeString : List Char → List Nat × Bool
  /-- Function `argon2.IDKey` applied to password and salt. -/
  idKey : List Nat → List Nat → List Nat

/-- Function `hashPassword`, for the random bytes `salt` that `generateSalt`
read: the salt in base64, a colon, the Argon2id hash in base64. -/
def hashPassword (lib : Library) (salt : List Nat) (password : List Nat) : List Char :=
  let saltStr := lib.encodeToString salt
  let saltBytes := (lib.decodeString saltStr).1
  let hash := lib.idKey password saltBytes
  let hashStr := lib.encodeToString hash
  saltStr ++ [':'] ++ hashStr

/-- Function `verifyPassword`; `strings.Split(storedHash, ":")` is
`List.splitOn`. -/
def verifyPassword (lib : Library) (password : List Nat) (storedHash : List Char) :
    Bool :=
  match storedHash.splitOn ':' with
  | [salt, hashStr] =>
    let decoded := lib.decodeString salt
    if decoded.2 then false
    else
      let hash := lib.idKey password decoded.1
      let hashStr2 := lib.encodeToString hash
      hashStr == hashStr2
  | _ => false

/-- The alphabet of the standard base64 encoding. -/
def base64Alphabet : List Char :=
  "ABCDEFGHIJKLMNOPQRSTUVWXYZabcdefghijklmnopqrstuvwxyz0123456789+/".toList

/-- Character of a 6-bit value in the standard alphabet. -/
def base64Char (n : Nat) : Char :=
  base64Alphabet.getD (n % 64) 'A'

/-- Standard base64 encoding with padding (RFC 4648). -/
def base64Encode : List Nat → List Char
  | [] => []
  | [a] => [base64Char (a / 4), base64Char (a % 4 * 16), '=', '=']
  | [a, b] =>
    [base64Char (a / 4), base64Char (a % 4 * 16 + b / 16), base64Char (b % 16 * 4), '=']
  | a :: b :: c :: rest =>
    base64Char (a / 4) :: base64Char (a % 4 * 16 + b / 16)
      :: base64Char (b % 16 * 4 + c / 64) :: base64Char (c % 64) :: base64Encode rest

/-- Standard base64 decoding; the flag is set when the text is not a valid
encoding. -/
def base64Decode : List Char → List Nat × Bool
  | [] => ([], false)
  | [c1, c2, '=', '='] =>
    let i1 := base64Alphabet.indexOf c1
    let i2 := base64Alphabet.indexOf c2
    if i1 < 64 ∧ i2 < 64 then ([i1 * 4 + i2 / 16], false) else ([], true)
  | [c1, c2, c3, '='] =>
    let i1 := base64Alphabet.indexOf c1
    let i2 := base64Alphabet.indexOf c2
    let i3 := base64Alphabet.indexOf c3
    if i1 < 64 ∧ i2 < 64 ∧ i3 < 64 then
      ([i1 * 4 + i2 / 16, i2 % 16 * 16 + i3 / 4], false)
    else ([], true)
  | c1 :: c2 :: c3 :: c4 :: rest =>
    let i1 := base64Alphabet.indexOf c1
    let i2 := base64Alphabet.indexOf c2
    let i3 := base64Alphabet.indexOf c3
    let i4 := base64Alphabet.indexOf c4
    if i1 < 64 ∧ i2 < 64 ∧ i3 < 64 ∧ i4 < 64 then
      let r := base64Decode rest
      ((i1 * 4 + i2 / 16) :: (i2 % 16 * 16 + i3 / 4) :: (i3 % 4 * 64 + i4) :: r.1, r.2)
    else ([], true)
  | _ => ([], true)

/-- A library for evaluating the two functions: standard base64, and in place
of Argon2id a stand-in that returns 32 bytes computed from password and
salt. -/
def demoLibrary : Library :=
  { encodeToString := base64Encode
    decodeString := base64Decode
    idKey := fun password salt =>
      (List.range 32).map (fun i => (password.sum + 7 * salt.sum + 31 * i) % 256) }

/-! ### The trade history of an account

`getUserTrades` reads the timestamps `created_at` and `completed_at`, which
the operations above do not.  A timestamp is a natural number (seconds); the
tables are read from a `TradeLog`, in which every row carries its
timestamp. -/

/-- The tables `getUserTrades` reads: `users`, `trades` with `created_at`,
`trade_completions` with `completed_at`. -/
structure TradeLog where
  users : List UserRow
  trades : List (Trade × Nat)
  trade_completions : List (TradeCompletion × Nat)

/-- One map of the slice `getUserTrades` returns. -/
structure TradeEntry where
  id : Int
  coin_selling : String
  amount_selling : ℚ
  coin_buying : String
  amount_buying : ℚ
  price_per_unit : ℚ
  price_ltc : ℚ
  status : String
  created_at : Nat
  counterparty : Option String
  deriving DecidableEq

/-- First `SELECT` of `getUserTrades`: the orders `userID` sells, with
`NULL` as counterparty. -/
def sellerRows (log : TradeLog) (userID : Int) : List TradeEntry :=
  (log.trades.filter (fun t => t.1.seller_id == userID)).map
    (fun t => ⟨t.1.id, t.1.coin_selling, t.1.amount_selling, t.1.coin_buying,
      t.1.amount_buying, t.1.price_per_unit, t.1.amount_buying, t.1.status, t.2, none⟩)

/-- Second `SELECT` of `getUserTrades`: the fills of `userID`, joined with
their order and the order's seller, rendered with the coins swapped. -/
def buyerRows (log : TradeLog) (userID : Int) : List TradeEntry :=
  (log.trade_completions.filter (fun tc => tc.1.buyer_id == userID)).flatMap
    (fun tc => (log.trades.filter (fun t => t.1.id == tc.1.trade_id)).flatMap
      (fun t => (log.users.filter (fun u => u.id == t.1.seller_id)).map
        (fun u => ⟨t.1.id, t.1.coin_buying, tc.1.quantity, t.1.coin_selling,
          tc.1.quantity * t.1.price_per_unit, t.1.price_per_unit,
          tc.1.quantity * t.1.price_per_unit, "completed", tc.2, some u.username⟩)))

/-- Function `getUserTrades`: the two selections joined by `UNION ALL` and
ordered by `created_at DESC`. -/
def getUserTrades (log : TradeLog) (userID : Int) : List TradeEntry :=
  (sellerRows log userID ++ buyerRows log userID).mergeSort
    (fun a b => decide (b.created_at ≤ a.created_at))

/-- The tables of a `Server` read as a log, the orders stamped `t₁` and the
fills stamped `t₂`. -/
def logOf (users : List UserRow) (s : Server) (t₁ t₂ : Nat) : TradeLog :=
  { users := users, trades := s.trades.map (fun t => (t, t₁)),
    trade_completions := s.trade_completions.map (fun c => (c, t₂)) }

/-- A log for evaluating `getUserTrades`: mike (account 1) sold 100
kernelcoin for 200 litecoin at time 5 and bob (account 2) filled 10 of it at
time 9; bob posted an order of his own at time 7. -/
def demoLog : TradeLog :=
  { users := [⟨1, "mike", none, none, none, none⟩, ⟨2, "bob", none, none, none, none⟩],
    trades := [(⟨1, 1, "kernelcoin", 100, "litecoin", 200, 2, "open"⟩, 5),
               (⟨2, 2, "litecoin", 30, "kernelcoin", 10, 3, "open"⟩, 7)],
    trade_completions := [(⟨1, 2, 10⟩, 9)] }

/-! ### The operations in float64 arithmetic

Go's `float64` and SQLite's `REAL` are IEEE 754 binary64, and every `+`, `-`,
`*` and `/` on them gives the exact result rounded to the nearest value of
that format (ties to the even significand).  The operations above leave the
rounding out.  The variants below take the rounding as the parameter `fl` and
apply it at each place where the source does such an operation, in Go or in
an `UPDATE ... SET col = col ± ?`; with `fl` the identity they are the
operations above.  `float64` is the rounding of binary64 on the rationals,
gradual underflow included.  Results beyond the largest finite value (an
infinity in binary64) are outside the embedding. -/

/-- The power `2 ^ e` for an integer exponent. -/
def pow2 (e : Int) : ℚ :=
  if 0 ≤ e then ((2 ^ e.toNat : Nat) : ℚ) else 1 / ((2 ^ (-e).toNat : Nat) : ℚ)

/-- Number of halvings that bring `n` below 2, at most `fuel` of them. -/
def log2Fuel : Nat → Nat → Nat
  | 0, _ => 0
  | fuel + 1, n => if n < 2 then 0 else log2Fuel fuel (n / 2) + 1

/-- Position of the leading binary digit of `n`: `⌊log₂ n⌋` for `n ≥ 1`. -/
def bitLog (n : Nat) : Nat := log2Fuel n n

/-- For `q > 0` the exponent `e` with `2 ^ e ≤ q < 2 ^ (e + 1)`. -/
def floorLog2 (q : ℚ) : Int :=
  let e0 : Int := (bitLog q.num.natAbs : Int) - (bitLog q.den : Int)
  if pow2 e0 ≤ q then e0 else e0 - 1

/-- Nearest integer, a tie going to the even one. -/
def roundEven (m : ℚ) : Int :=
  let f := Rat.floor m
  let r := m - f
  if r < 1 / 2 then f
  else if 1 / 2 < r then f + 1
  else if f % 2 = 0 then f else f + 1

/-- Rounding of binary64: the nearest number of the form `n * 2 ^ p` with
`|n| ≤ 2 ^ 53`, where `p` is 52 below the exponent of `q` and not below
-1074 (the spacing of the subnormal numbers), ties to even `n`. -/
def float64 (q : ℚ) : ℚ :=
  if q = 0 then 0
  else
    let a := |q|
    let p := max (floorLog2 a - 52) (-1074)
    let v := (roundEven (a / pow2 p) : ℚ) * pow2 p
    if q < 0 then -v else v

/-- One row after `UPDATE balances SET col = col + delta`, the sum rounded. -/
def Balance.adjustFl (fl : ℚ → ℚ) (b : Balance) (col : String) (delta : ℚ) : Balance :=
  if col = "litecoin" then { b with Litecoin := fl (b.Litecoin + delta) }
  else { b with Kernelcoin := fl (b.Kernelcoin + delta) }

/-- Rows of `balances` after `SET col = col + delta WHERE user_id = userID`,
the sum rounded. -/
def adjustRowsFl (fl : ℚ → ℚ) (rows : List Balance) (col : String) (delta : ℚ)
    (userID : Int) : List Balance :=
  rows.map (fun b => if b.UserID = userID then b.adjustFl fl col delta else b)

/-- Statement `UPDATE balances SET col = col + delta WHERE user_id = userID`,
the sum rounded; `none` as for `updateBalance`. -/
def updateBalanceFl (fl : ℚ → ℚ) (s : Server) (col : String) (delta : ℚ)
    (userID : Int) : Option Server :=
  if col = "litecoin" ∨ col = "kernelcoin" then
    some { s with balances := adjustRowsFl fl s.balances col delta userID }
  else none

/-- Function `createTrade` with the quotient and the reservation rounded. -/
def createTradeFl (fl : ℚ → ℚ) (s : Server) (sellerID : Int) (coinSelling : String)
    (amountSelling : ℚ) (coinBuying : String) (amountBuying : ℚ) :
    Server × Int × Option Error :=
  let pricePerUnit :=
    if coinSelling = "kernelcoin" then fl (amountBuying / amountSelling)
    else fl (amountSelling / amountBuying)
  if amountSelling = 0 ∧ amountBuying = 0 then (s, 0, some Error.sqlExec)
  else
    let tradeID := nextTradeID s
    let row : Trade :=
      { id := tradeID, seller_id := sellerID, coin_selling := coinSelling,
        amount_selling := amountSelling, coin_buying := coinBuying,
        amount_buying := amountBuying, price_per_unit := pricePerUnit,
        status := "open" }
    let s1 : Server := { s with trades := s.trades ++ [row] }
    match updateBalanceFl fl s1 coinSelling (-amountSelling) sellerID with
    | some s2 => (s2, tradeID, none)
    | none => (s1, tradeID, some Error.sqlExec)

/-- Handler `handleCreateTrade` over `createTradeFl`; its own comparisons do no
arithmetic. -/
def handleCreateTradeFl (fl : ℚ → ℚ) (s : Server) (userID : Int) (coinSelling : String)
    (amountSelling : ℚ) (coinBuying : String) (amountBuying : ℚ) :
    Server × Except String Int :=
  if activeTradesCount s userID ≥ 10 then
    (s, .error "Maximum of 10 active trades allowed per account")
  else
    match getUserBalance s userID with
    | none => (s, .error "User balance not found")
    | some balance =>
      if coinBalance balance coinSelling < amountSelling then
        (s, .error "Insufficient balance")
      else
        match createTradeFl fl s userID coinSelling amountSelling coinBuying
            amountBuying with
        | (s1, _, some _) => (s1, .error "Failed to create trade")
        | (s1, tradeID, none) => (s1, .ok tradeID)

/-- Local `buyerGivesAmount` of `executeTrade`, the product rounded. -/
def buyerGivesAmountFl (fl : ℚ → ℚ) (trade : Trade) (quantity : ℚ) : ℚ :=
  if trade.coin_buying = "kernelcoin" then quantity
  else fl (quantity * trade.price_per_unit)

/-- Local `buyerReceivesAmount` of `executeTrade`, the product rounded. -/
def buyerReceivesAmountFl (fl : ℚ → ℚ) (trade : Trade) (quantity : ℚ) : ℚ :=
  if trade.coin_buying = "kernelcoin" then fl (quantity * trade.price_per_unit)
  else quantity

/-- Function `executeTrade` with the product and the three updates rounded. -/
def executeTradeFl (fl : ℚ → ℚ) (s : Server) (tradeID : Int) (buyerID : Int)
    (quantity : ℚ) : Server × Option Error :=
  match getTrade s tradeID with
  | none => (s, some Error.noRows)
  | some trade =>
    match getUserBalance s buyerID with
    | none => (s, some Error.nilDeref)
    | some buyerBal =>
      if coinBalance buyerBal (buyerGives trade)
          < buyerGivesAmountFl fl trade quantity then
        (s, some (Error.msg "insufficient balance"))
      else
        match getUserBalance s trade.seller_id with
        | none => (s, some Error.nilDeref)
        | some sellerBal =>
          if coinBalance sellerBal trade.coin_selling
              < buyerReceivesAmountFl fl trade quantity then
            (s, some (Error.msg "trade amount unavailable"))
          else
            match updateBalanceFl fl s (buyerGives trade)
                (-buyerGivesAmountFl fl trade quantity) buyerID with
            | none => (s, some Error.sqlExec)
            | some s1 =>
              match updateBalanceFl fl s1 (buyerReceives trade)
                  (buyerReceivesAmountFl fl trade quantity) buyerID with
              | none => (s1, some Error.sqlExec)
              | some s2 =>
                match updateBalanceFl fl s2 (buyerGives trade)
                    (buyerGivesAmountFl fl trade quantity) trade.seller_id with
                | none => (s2, some Error.sqlExec)
                | some s3 =>
                  let s4 := insertCompletion s3 tradeID buyerID quantity
                  if quantity ≥ trade.amount_buying then
                    (updateStatus s4 tradeID "completed", none)
                  else (s4, none)

/-- Local `reserved` of `handleWithdraw`, accumulated by `reserved += amount`
over the rows in the order the query returns them, each sum rounded. -/
def reservedFl (fl : ℚ → ℚ) (s : Server) (userID : Int) (coin : String) : ℚ :=
  ((s.trades.filter (fun t => t.seller_id == userID && t.status == "open")).filter
    (fun t => t.coin_selling == coin)).foldl (fun acc t => fl (acc + t.amount_selling)) 0

/-- Handler `handleWithdraw` with the constant `0.001`, the sum `reserved`,
the difference `userBalance - reserved` and the update rounded. -/
def handleWithdrawFl (fl : ℚ → ℚ)
    (sendToAddress payTo : String → ℚ → Except String String)
    (w : WalletServer) (userID : Int) (coin : String) (amount : ℚ) :
    WalletServer × WithdrawReply :=
  if amount < fl (1 / 1000) then (w, WithdrawReply.belowMinimum)
  else
    match getUserBalance w.db userID with
    | none => (w, WithdrawReply.balanceNotFound)
    | some balance =>
      let userBalance := coinBalance balance coin
      let availableBalance := fl (userBalance - reservedFl fl w.db userID coin)
      if availableBalance < amount then (w, WithdrawReply.insufficientAvailable)
      else if userBalance < amount then (w, WithdrawReply.insufficientBalance)
      else
        match withdrawalAddr w.users userID coin with
        | none => (w, WithdrawReply.noAddress)
        | some address =>
          if address = "" then (w, WithdrawReply.noAddress)
          else if !w.noWallets && (coin == "kernelcoin" || coin == "litecoin") then
            match (if coin = "kernelcoin" then sendToAddress address amount
                   else payTo address amount) with
            | .error _ => (w, WithdrawReply.sendFailed)
            | .ok txid =>
              match updateBalanceFl fl w.db coin (-amount) userID with
              | none => (w, WithdrawReply.updateFailed)
              | some db1 =>
                (logWithdrawal { w with db := db1 } userID coin amount (some txid),
                  WithdrawReply.sent txid)
          else if w.noWallets then
            match updateBalanceFl fl w.db coin (-amount) userID with
            | none => (w, WithdrawReply.updateFailed)
            | some db1 =>
              (logWithdrawal { w with db := db1 } userID coin amount none,
                WithdrawReply.submitted)
          else (w, WithdrawReply.walletRequired coin)

/-- A server in no-wallets mode on the seeded tables in which account 1 has
withdrawn 999 kernelcoin and then posted an order that sells `2 ^ (-60)`
kernelcoin for 1 litecoin, all in float64: the account holds 1 kernelcoin
(the reservation of `2 ^ (-60)` is lost in the rounding of `1 - 2 ^ (-60)`). -/
def roundingDemo : WalletServer :=
  let w1 := (handleWithdrawFl float64 (fun _ _ => .error "off") (fun _ _ => .error "off")
    { walletDemo with noWallets := true } 1 "kernelcoin" 999).1
  let db2 := (handleCreateTradeFl float64 w1.db 1 "kernelcoin" (pow2 (-60)) "litecoin" 1).1
  { w1 with db := db2 }

/-! ## Reading the tables after a statement -/

/-- Looking a key up after rewriting rows in place: when the rewrite keeps
the key, the row found is the rewritten row. -/
theorem find?_map_key {α : Type} (p : α → Bool) (f : α → α)
    (hf : ∀ a, p (f a) = p a) (l : List α) :
    (l.map f).find? p = (l.find? p).map f := by
  induction l with
  | nil => rfl
  | cons a l ih =>
    simp only [List.map_cons, List.find?_cons, hf]
    cases p a <;> simp [ih]

theorem adjust_UserID (b : Balance) (col : String) (delta : ℚ) :
    (b.adjust col delta).UserID = b.UserID := by
  unfold Balance.adjust
  split <;> rfl

theorem getUserBalance_UserID {s : Server} {u : Int} {b : Balance}
    (h : getUserBalance s u = some b) : b.UserID = u := by
  have := List.find?_some h
  simpa using this

theorem updateBalance_column (s : Server) (col : String) (delta : ℚ) (u : Int)
    (hcol : col = "litecoin" ∨ col = "kernelcoin") :
    updateBalance s col delta u =
      some { s with balances := adjustRows s.balances col delta u } := by
  simp [updateBalance, hcol]

theorem find?_adjustRows (rows : List Balance) (col : String) (delta : ℚ)
    (u v : Int) :
    (adjustRows rows col delta u).find? (fun b => b.UserID == v)
    = (rows.find? (fun b => b.UserID == v)).map
        (fun b => if b.UserID = u then b.adjust col delta else b) := by
  unfold adjustRows
  apply find?_map_key
  intro a
  by_cases h : a.UserID = u <;> simp [h, adjust_UserID]

theorem buyerGives_column (trade : Trade) :
    buyerGives trade = "litecoin" ∨ buyerGives trade = "kernelcoin" := by
  unfold buyerGives
  split <;> simp

theorem buyerReceives_column (trade : Trade) :
    buyerReceives trade = "litecoin" ∨ buyerReceives trade = "kernelcoin" := by
  unfold buyerReceives
  split <;> simp

/-- The value `executeTrade` returns once both balance checks have passed:
the three balance updates, the completion row and the status update. -/
theorem executeTrade_of_checks {s : Server} {tradeID buyerID : Int} {quantity : ℚ}
    {trade : Trade} {buyerBal sellerBal : Balance}
    (ht : getTrade s tradeID = some trade)
    (hb : getUserBalance s buyerID = some buyerBal)
    (hs : getUserBalance s trade.seller_id = some sellerBal)
    (h1 : ¬ coinBalance buyerBal (buyerGives trade) < buyerGivesAmount trade quantity)
    (h2 : ¬ coinBalance sellerBal trade.coin_selling < buyerReceivesAmount trade quantity) :
    executeTrade s tradeID buyerID quantity =
      let rows1 := adjustRows s.balances (buyerGives trade)
        (-buyerGivesAmount trade quantity) buyerID
      let rows2 := adjustRows rows1 (buyerReceives trade)
        (buyerReceivesAmount trade quantity) buyerID
      let rows3 := adjustRows rows2 (buyerGives trade)
        (buyerGivesAmount trade quantity) trade.seller_id
      let s3 : Server := { s with balances := rows3 }
      let s4 := insertCompletion s3 tradeID buyerID quantity
      if quantity ≥ trade.amount_buying then
        (updateStatus s4 tradeID "completed", none)
      else (s4, none) := by
  unfold executeTrade
  simp only [ht, hb, hs, h1, h2, if_false,
    updateBalance_column _ _ _ _ (buyerGives_column trade),
    updateBalance_column _ _ _ _ (buyerReceives_column trade)]

/-- Balances and error after a fill that passed both checks. -/
theorem executeTrade_balances_of_checks {s : Server} {tradeID buyerID : Int}
    {quantity : ℚ} {trade : Trade} {buyerBal sellerBal : Balance}
    (ht : getTrade s tradeID = some trade)
    (hb : getUserBalance s buyerID = some buyerBal)
    (hs : getUserBalance s trade.seller_id = some sellerBal)
    (h1 : ¬ coinBalance buyerBal (buyerGives trade) < buyerGivesAmount trade quantity)
    (h2 : ¬ coinBalance sellerBal trade.coin_selling < buyerReceivesAmount trade quantity) :
    (executeTrade s tradeID buyerID quantity).2 = none ∧
    (executeTrade s tradeID buyerID quantity).1.balances =
      adjustRows (adjustRows (adjustRows s.balances (buyerGives trade)
        (-buyerGivesAmount trade quantity) buyerID) (buyerReceives trade)
        (buyerReceivesAmount trade quantity) buyerID) (buyerGives trade)
        (buyerGivesAmount trade quantity) trade.seller_id := by
  rw [executeTrade_of_checks ht hb hs h1 h2]
  by_cases hq : quantity ≥ trade.amount_buying
  · simp [hq, updateStatus, insertCompletion]
  · simp [hq, insertCompletion]

/-- The row of account `u` after a fill that passed both checks. -/
theorem getUserBalance_executeTrade {s : Server} {tradeID buyerID : Int}
    {quantity : ℚ} {trade : Trade} {buyerBal sellerBal : Balance}
    (ht : getTrade s tradeID = some trade)
    (hb : getUserBalance s buyerID = some buyerBal)
    (hs : getUserBalance s trade.seller_id = some sellerBal)
    (h1 : ¬ coinBalance buyerBal (buyerGives trade) < buyerGivesAmount trade quantity)
    (h2 : ¬ coinBalance sellerBal trade.coin_selling < buyerReceivesAmount trade quantity)
    (u : Int) :
    getUserBalance (executeTrade s tradeID buyerID quantity).1 u =
      (((getUserBalance s u).map (fun b => if b.UserID = buyerID then
          b.adjust (buyerGives trade) (-buyerGivesAmount trade quantity) else b)).map
        (fun b => if b.UserID = buyerID then
          b.adjust (buyerReceives trade) (buyerReceivesAmount trade quantity) else b)).map
        (fun b => if b.UserID = trade.seller_id then
          b.adjust (buyerGives trade) (buyerGivesAmount trade quantity) else b) := by
  unfold getUserBalance
  rw [(executeTrade_balances_of_checks ht hb hs h1 h2).2, find?_adjustRows,
    find?_adjustRows, find?_adjustRows]

/-- C3 (fill effect).  For an order over the litecoin/kernelcoin pair and a
fill of `quantity` by a buyer other than the seller that passes both balance
checks, `executeTrade` returns no error; when the order buys kernelcoin the
buyer's kernelcoin falls by `quantity` and the buyer's litecoin rises by
`quantity * price_per_unit`, otherwise the buyer's litecoin falls by
`quantity * price_per_unit` and the buyer's kernelcoin rises by `quantity`;
the seller is credited exactly what the buyer gave, in that coin, the seller's
balance in the coin sold is unchanged, and no other account changes. -/
theorem executeTrade_fill_effect (s : Server) (tradeID buyerID : Int) (quantity : ℚ)
    (trade : Trade) (buyerBal sellerBal : Balance)
    (ht : getTrade s tradeID = some trade)
    (hpair : (trade.coin_selling = "kernelcoin" ∧ trade.coin_buying = "litecoin") ∨
      (trade.coin_selling = "litecoin" ∧ trade.coin_buying = "kernelcoin"))
    (hb : getUserBalance s buyerID = some buyerBal)
    (hs : getUserBalance s trade.seller_id = some sellerBal)
    (hne : buyerID ≠ trade.seller_id)
    (h1 : ¬ coinBalance buyerBal (buyerGives trade) < buyerGivesAmount trade quantity)
    (h2 : ¬ coinBalance sellerBal trade.coin_selling < buyerReceivesAmount trade quantity) :
    (executeTrade s tradeID buyerID quantity).2 = none ∧
    (trade.coin_buying = "kernelcoin" →
      getUserBalance (executeTrade s tradeID buyerID quantity).1 buyerID =
        some ⟨buyerID, buyerBal.Litecoin + quantity * trade.price_per_unit,
          buyerBal.Kernelcoin - quantity⟩ ∧
      getUserBalance (executeTrade s tradeID buyerID quantity).1 trade.seller_id =
        some ⟨trade.seller_id, sellerBal.Litecoin, sellerBal.Kernelcoin + quantity⟩) ∧
    (trade.coin_buying ≠ "kernelcoin" →
      getUserBalance (executeTrade s tradeID buyerID quantity).1 buyerID =
        some ⟨buyerID, buyerBal.Litecoin - quantity * trade.price_per_unit,
          buyerBal.Kernelcoin + quantity⟩ ∧
      getUserBalance (executeTrade s tradeID buyerID quantity).1 trade.seller_id =
        some ⟨trade.seller_id, sellerBal.Litecoin + quantity * trade.price_per_unit,
          sellerBal.Kernelcoin⟩) ∧
    (∀ b, getUserBalance (executeTrade s tradeID buyerID quantity).1 trade.seller_id
        = some b → coinBalance b trade.coin_selling
          = coinBalance sellerBal trade.coin_selling) ∧
    (∀ u, u ≠ buyerID → u ≠ trade.seller_id →
      getUserBalance (executeTrade s tradeID buyerID quantity).1 u
        = getUserBalance s u) := by
  have hbu := getUserBalance_UserID hb
  have hsu := getUserBalance_UserID hs
  have hne2 : trade.seller_id ≠ buyerID := fun h => hne h.symm
  have key := getUserBalance_executeTrade ht hb hs h1 h2
  obtain ⟨bU, bL, bK⟩ := buyerBal
  obtain ⟨sU, sL, sK⟩ := sellerBal
  simp only at hbu hsu
  subst hbu
  refine ⟨(executeTrade_balances_of_checks ht hb hs h1 h2).1, ?_, ?_, ?_, ?_⟩
  · intro hk
    rw [key, key, hb, hs]
    simp [Balance.adjust, buyerGives, buyerReceives, buyerGivesAmount,
      buyerReceivesAmount, hk, hne, hne2, hsu]
    ring
  · intro hk
    rw [key, key, hb, hs]
    simp [Balance.adjust, buyerGives, buyerReceives, buyerGivesAmount,
      buyerReceivesAmount, hk, hne, hne2, hsu]
    ring
  · intro b hbafter
    rw [key, hs] at hbafter
    rcases hpair with ⟨hsell, hbuy⟩ | ⟨hsell, hbuy⟩ <;>
      simp [Balance.adjust, buyerGives, buyerReceives, hbuy, hne, hne2, hsu] at hbafter <;>
      subst hbafter <;> simp [coinBalance, hsell]
  · intro u hu1 hu2
    rw [key]
    cases hfu : getUserBalance s u with
    | none => rfl
    | some b =>
      have := getUserBalance_UserID hfu
      simp [this, hu1, hu2]

/-- Scenario 2 of the specification, as an instance of the fill effect: B
fills 40 of A's order; B ends with 960 litecoin and 1040 kernelcoin, A with
1040 litecoin. -/
theorem executeTrade_fill_effect_witness :
    getUserBalance (executeTrade scenario1 1 2 40).1 2 = some ⟨2, 960, 1040⟩ ∧
    getUserBalance (executeTrade scenario1 1 2 40).1 1 = some ⟨1, 1040, 900⟩ := by
  have h := executeTrade_fill_effect scenario1 1 2 40
    ⟨1, 1, "kernelcoin", 100, "litecoin", 100, 1, "open"⟩ ⟨2, 1000, 1000⟩ ⟨1, 1000, 900⟩
    (by decide!) (by decide) (by decide!) (by decide!) (by decide) (by decide!) (by decide!)
  have h2 := h.2.2.1 (by decide)
  norm_num at h2
  exact h2

/-! ## Creating an order -/

theorem le_foldl_max (l : List Int) (a : Int) :
    a ≤ l.foldl max a ∧ ∀ x ∈ l, x ≤ l.foldl max a := by
  induction l generalizing a with
  | nil => simp
  | cons y l ih =>
    simp only [List.foldl_cons, List.mem_cons, forall_eq_or_imp]
    obtain ⟨h1, h2⟩ := ih (max a y)
    exact ⟨le_trans (le_max_left a y) h1, le_trans (le_max_right a y) h1, h2⟩

/-- No stored order already has the id the next insert will get. -/
theorem getTrade_nextTradeID (s : Server) : getTrade s (nextTradeID s) = none := by
  unfold getTrade
  rw [List.find?_eq_none]
  intro t ht
  have h := (le_foldl_max (s.trades.map (fun t => t.id)) 0).2 t.id
    (List.mem_map_of_mem _ ht)
  have hlt : t.id < nextTradeID s := by
    unfold nextTradeID
    omega
  simp only [beq_iff_eq]
  omega

/-- C4 (create effect), the request on which the claim as stated fails.
Account 1 of the seeded state has no open order and 1000 kernelcoin, which
is at least the 0 it asks to sell; for a create of 0 kernelcoin against 0
litecoin the price is 0/0 and the insert is refused: the reply is the error
"Failed to create trade" and no order is added. -/
theorem handleCreateTrade_zero_amounts :
    activeTradesCount seeded 1 < 10 ∧
    (∃ bal, getUserBalance seeded 1 = some bal ∧ coinBalance bal "kernelcoin" ≥ 0) ∧
    handleCreateTrade seeded 1 "kernelcoin" 0 "litecoin" 0
      = (seeded, .error "Failed to create trade") ∧
    (handleCreateTrade seeded 1 "kernelcoin" 0 "litecoin" 0).1.trades = [] := by
  refine ⟨by decide, ⟨⟨1, 1000, 1000⟩, by decide!, by decide!⟩, by decide!, by decide!⟩

/-- C4 (create effect), amended.  For a seller with fewer than 10 open orders
whose balance in `coinSelling` (litecoin or kernelcoin) is at least
`amountSelling`, and a request whose two amounts are not both zero,
`handleCreateTrade` answers with the new trade id, lowers exactly that
seller's `coinSelling` balance by `amountSelling`, leaves the seller's other
balance and every other account as they were, and appends exactly one order,
open, with the requested seller, coins and amounts, which `getTrade` then
finds under the returned id; no fill record is written.  The price stored
with the order is not part of this statement. -/
theorem handleCreateTrade_effect (s : Server) (userID : Int) (coinSelling : String)
    (amountSelling : ℚ) (coinBuying : String) (amountBuying : ℚ) (bal : Balance)
    (hcount : activeTradesCount s userID < 10)
    (hcoin : coinSelling = "litecoin" ∨ coinSelling = "kernelcoin")
    (hbal : getUserBalance s userID = some bal)
    (hsuff : coinBalance bal coinSelling ≥ amountSelling)
    (hnz : ¬ (amountSelling = 0 ∧ amountBuying = 0)) :
    (handleCreateTrade s userID coinSelling amountSelling coinBuying amountBuying).2
      = .ok (nextTradeID s) ∧
    getUserBalance
      (handleCreateTrade s userID coinSelling amountSelling coinBuying amountBuying).1
      userID
      = some (if coinSelling = "litecoin"
          then ⟨userID, bal.Litecoin - amountSelling, bal.Kernelcoin⟩
          else ⟨userID, bal.Litecoin, bal.Kernelcoin - amountSelling⟩) ∧
    (∀ u, u ≠ userID → getUserBalance
      (handleCreateTrade s userID coinSelling amountSelling coinBuying amountBuying).1 u
      = getUserBalance s u) ∧
    (∃ price,
      (handleCreateTrade s userID coinSelling amountSelling coinBuying
        amountBuying).1.trades
        = s.trades ++ [⟨nextTradeID s, userID, coinSelling, amountSelling, coinBuying,
            amountBuying, price, "open"⟩] ∧
      getTrade
        (handleCreateTrade s userID coinSelling amountSelling coinBuying amountBuying).1
        (nextTradeID s)
        = some ⟨nextTradeID s, userID, coinSelling, amountSelling, coinBuying,
            amountBuying, price, "open"⟩) ∧
    (handleCreateTrade s userID coinSelling amountSelling coinBuying
      amountBuying).1.trade_completions = s.trade_completions := by
  have hcnt : ¬ activeTradesCount s userID ≥ 10 := by omega
  have hlt : ¬ coinBalance bal coinSelling < amountSelling := not_lt.mpr hsuff
  have hu := getUserBalance_UserID hbal
  have hfresh := getTrade_nextTradeID s
  have hrun : handleCreateTrade s userID coinSelling amountSelling coinBuying amountBuying
      = ({ balances := adjustRows s.balances coinSelling (-amountSelling) userID,
           trades := s.trades ++ [⟨nextTradeID s, userID, coinSelling, amountSelling,
             coinBuying, amountBuying,
             if coinSelling = "kernelcoin" then amountBuying / amountSelling
             else amountSelling / amountBuying, "open"⟩],
           trade_completions := s.trade_completions }, .ok (nextTradeID s)) := by
    unfold handleCreateTrade createTrade
    simp only [hcnt, if_false, hbal, hlt, hnz, updateBalance_column _ _ _ _ hcoin]
  rw [hrun]
  refine ⟨rfl, ?_, ?_, ⟨_, rfl, ?_⟩, rfl⟩
  · unfold getUserBalance at hbal ⊢
    simp only
    rw [find?_adjustRows, hbal]
    obtain ⟨bU, bL, bK⟩ := bal
    simp only at hu
    subst hu
    by_cases hl : coinSelling = "litecoin" <;>
      simp [Balance.adjust, hl] <;> ring
  · intro u hne
    unfold getUserBalance
    simp only
    rw [find?_adjustRows]
    cases hfu : s.balances.find? (fun b => b.UserID == u) with
    | none => rfl
    | some b =>
      have hb' : b.UserID = u := getUserBalance_UserID hfu
      simp [hb', hne]
  · unfold getTrade at hfresh ⊢
    simp only
    rw [List.find?_append, hfresh]
    simp

/-- Scenario 1 of the specification, as an instance of the create effect: A
sells 100 kernelcoin for 100 litecoin; the reply carries trade id 1, A's
kernelcoin becomes 900 and the order is open at price 1. -/
theorem handleCreateTrade_effect_witness :
    (handleCreateTrade seeded 1 "kernelcoin" 100 "litecoin" 100).2 = .ok 1 ∧
    getUserBalance (handleCreateTrade seeded 1 "kernelcoin" 100 "litecoin" 100).1 1
      = some ⟨1, 1000, 900⟩ ∧
    (handleCreateTrade seeded 1 "kernelcoin" 100 "litecoin" 100).1.trades
      = [⟨1, 1, "kernelcoin", 100, "litecoin", 100, 1, "open"⟩] := by
  have h := handleCreateTrade_effect seeded 1 "kernelcoin" 100 "litecoin" 100
    ⟨1, 1000, 1000⟩ (by decide) (by decide) (by decide!) (by decide!) (by decide!)
  obtain ⟨h0, h1, -, -, -⟩ := h
  have hne : ¬ ("kernelcoin" = "litecoin") := by decide
  refine ⟨?_, ?_, by decide!⟩
  · rw [h0]
    norm_num [seeded, nextTradeID]
  · rw [h1]
    norm_num [hne]

/-! ## Cancelling an order -/

theorem getTrade_id {s : Server} {i : Int} {t : Trade}
    (h : getTrade s i = some t) : t.id = i := by
  have := List.find?_some h
  simpa using this

/-- The order read back under id `i` after `updateStatus`. -/
theorem getTrade_updateStatus (s : Server) (tradeID : Int) (st : String) (i : Int) :
    getTrade (updateStatus s tradeID st) i =
      (getTrade s i).map
        (fun t => if t.id = tradeID then { t with status := st } else t) := by
  unfold getTrade updateStatus
  apply find?_map_key
  intro a
  by_cases h : a.id = tradeID <;> simp [h]

/-- Effect of a cancellation on an order that sells litecoin or kernelcoin:
`cancelTrade` called by the order's seller returns no error, raises the
seller's balance in `coin_selling` by exactly the order's `amount_selling`,
changes no other balance of any account, sets the order's status to
cancelled and touches no other order and no fill record. -/
theorem cancelTrade_effect (s : Server) (tradeID userID : Int) (trade : Trade)
    (bal : Balance)
    (ht : getTrade s tradeID = some trade)
    (_hopen : trade.status = "open")
    (hown : trade.seller_id = userID)
    (hcoin : trade.coin_selling = "litecoin" ∨ trade.coin_selling = "kernelcoin")
    (hbal : getUserBalance s userID = some bal) :
    (cancelTrade s tradeID userID).2 = none ∧
    getUserBalance (cancelTrade s tradeID userID).1 userID
      = some (if trade.coin_selling = "litecoin"
          then ⟨userID, bal.Litecoin + trade.amount_selling, bal.Kernelcoin⟩
          else ⟨userID, bal.Litecoin, bal.Kernelcoin + trade.amount_selling⟩) ∧
    (∀ u, u ≠ userID →
      getUserBalance (cancelTrade s tradeID userID).1 u = getUserBalance s u) ∧
    getTrade (cancelTrade s tradeID userID).1 tradeID
      = some { trade with status := "cancelled" } ∧
    (∀ i, i ≠ tradeID →
      getTrade (cancelTrade s tradeID userID).1 i = getTrade s i) ∧
    (cancelTrade s tradeID userID).1.trade_completions = s.trade_completions := by
  have hu := getUserBalance_UserID hbal
  have hid := getTrade_id ht
  have hrun : cancelTrade s tradeID userID
      = (updateStatus
          ⟨adjustRows s.balances trade.coin_selling trade.amount_selling userID,
            s.trades, s.trade_completions⟩
          tradeID "cancelled", none) := by
    unfold cancelTrade
    simp only [ht, hown, ne_eq, not_true_eq_false, if_false,
      updateBalance_column _ _ _ _ hcoin]
  rw [hrun]
  refine ⟨rfl, ?_, ?_, ?_, ?_, rfl⟩
  · unfold getUserBalance at hbal ⊢
    simp only [updateStatus]
    rw [find?_adjustRows, hbal]
    obtain ⟨bU, bL, bK⟩ := bal
    simp only at hu
    subst hu
    by_cases hl : trade.coin_selling = "litecoin" <;>
      simp [Balance.adjust, hl]
  · intro u hne
    unfold getUserBalance
    simp only [updateStatus]
    rw [find?_adjustRows]
    cases hfu : s.balances.find? (fun b => b.UserID == u) with
    | none => rfl
    | some b =>
      have hb' : b.UserID = u := getUserBalance_UserID hfu
      simp [hb', hne]
  · rw [getTrade_updateStatus]
    have : getTrade
        ⟨adjustRows s.balances trade.coin_selling trade.amount_selling userID,
          s.trades, s.trade_completions⟩ tradeID
        = some trade := ht
    rw [this]
    simp [hid]
  · intro i hne
    rw [getTrade_updateStatus]
    have : getTrade
        ⟨adjustRows s.balances trade.coin_selling trade.amount_selling userID,
          s.trades, s.trade_completions⟩ i
        = getTrade s i := rfl
    rw [this]
    cases hfi : getTrade s i with
    | none => rfl
    | some t =>
      have := getTrade_id hfi
      simp [this, hne]

/-- Scenario 4 of the specification, as an instance of the cancel effect: A
cancels the second order before any fill; A's kernelcoin goes from 850 back
to 900 and the order is cancelled. -/
theorem cancelTrade_effect_witness :
    getUserBalance scenario4 1 = some ⟨1, 1000, 850⟩ ∧
    getUserBalance (cancelTrade scenario4 2 1).1 1 = some ⟨1, 1000, 900⟩ ∧
    getTrade (cancelTrade scenario4 2 1).1 2
      = some ⟨2, 1, "kernelcoin", 50, "litecoin", 50, 1, "cancelled"⟩ := by
  have h := cancelTrade_effect scenario4 2 1
    ⟨2, 1, "kernelcoin", 50, "litecoin", 50, 1, "open"⟩ ⟨1, 1000, 850⟩
    (by decide!) (by decide) (by decide) (by decide) (by decide!)
  obtain ⟨-, h1, -, h2, -, -⟩ := h
  have hne : ¬ ("kernelcoin" = "litecoin") := by decide
  refine ⟨by decide!, ?_, h2⟩
  rw [h1]
  norm_num [hne]

/-- C5 (cancel effect), evaluated on an open order that the seller cannot
cancel.  Account 1 asks to sell 5 `dogecoin` for 5 litecoin: the handler
answers "Failed to create trade", yet the order is stored with status open
(the reservation statement is refused after the insert).  `cancelTrade`
called by the seller then returns the error of its refund statement and leaves
the state as it was, the order still open. -/
theorem cancelTrade_of_unreserved_order :
    handleCreateTrade seeded 1 "dogecoin" 5 "litecoin" 5
      = (⟨[⟨1, 1000, 1000⟩, ⟨2, 1000, 1000⟩],
          [⟨1, 1, "dogecoin", 5, "litecoin", 5, 1, "open"⟩], []⟩,
         .error "Failed to create trade") ∧
    cancelTrade (handleCreateTrade seeded 1 "dogecoin" 5 "litecoin" 5).1 1 1
      = ((handleCreateTrade seeded 1 "dogecoin" 5 "litecoin" 5).1,
         some Error.sqlExec) ∧
    getTrade (cancelTrade (handleCreateTrade seeded 1 "dogecoin" 5 "litecoin" 5).1 1 1).1 1
      = some ⟨1, 1, "dogecoin", 5, "litecoin", 5, 1, "open"⟩ := by
  decide!

/-! ## Rejected fills -/

/-- C10 (insufficient buyer balance).  For an existing order and a fill in
which the buyer's balance in the coin the buyer must give is strictly less
than the give-amount, `executeTrade` returns the error
`insufficient balance` and the state it leaves is the state it was given:
balances, orders and fill records are unchanged. -/
theorem executeTrade_insufficient_balance (s : Server) (tradeID buyerID : Int)
    (quantity : ℚ) (trade : Trade) (buyerBal : Balance)
    (ht : getTrade s tradeID = some trade)
    (hb : getUserBalance s buyerID = some buyerBal)
    (hlt : coinBalance buyerBal (buyerGives trade) < buyerGivesAmount trade quantity) :
    executeTrade s tradeID buyerID quantity
      = (s, some (Error.msg "insufficient balance")) := by
  unfold executeTrade
  simp only [ht, hb, hlt, if_true]

/-- An instance of the rejection: B, holding 1000 litecoin, asks for 2000 of
A's order at price 1. -/
theorem executeTrade_insufficient_balance_witness :
    executeTrade scenario1 1 2 2000
      = (scenario1, some (Error.msg "insufficient balance")) :=
  executeTrade_insufficient_balance scenario1 1 2 2000
    ⟨1, 1, "kernelcoin", 100, "litecoin", 100, 1, "open"⟩ ⟨2, 1000, 1000⟩
    (by decide!) (by decide!) (by decide!)

/-! ## Evaluations of the operations on the scenarios of the specification -/

/-- C1 (conservation), evaluated.  From the seeded state, A's create keeps
the kernelcoin total of balances plus open reservations at 2000, and B's
partial fill of 40 then succeeds and raises it to 2040: the buyer is credited
40 kernelcoin while the order stays open with its full `amount_selling`.
In the other direction, when A sells 100 kernelcoin for 50 litecoin, B's fill
of 50 succeeds, pays out 50 kernelcoin and completes the order, and the total
drops to 1950. -/
theorem conservation_partial_fill :
    seeded.trades = [] ∧
    totalBalance seeded "kernelcoin" + totalReserved seeded "kernelcoin" = 2000 ∧
    totalBalance scenario1 "kernelcoin" + totalReserved scenario1 "kernelcoin" = 2000 ∧
    (executeTrade scenario1 1 2 40).2 = none ∧
    totalBalance (executeTrade scenario1 1 2 40).1 "kernelcoin"
      + totalReserved (executeTrade scenario1 1 2 40).1 "kernelcoin" = 2040 ∧
    (handleCreateTrade seeded 1 "kernelcoin" 100 "litecoin" 50).1.trades
      = [⟨1, 1, "kernelcoin", 100, "litecoin", 50, 1 / 2, "open"⟩] ∧
    (executeTrade (handleCreateTrade seeded 1 "kernelcoin" 100 "litecoin" 50).1
      1 2 50).2 = none ∧
    totalBalance (executeTrade (handleCreateTrade seeded 1 "kernelcoin" 100
        "litecoin" 50).1 1 2 50).1 "kernelcoin"
      + totalReserved (executeTrade (handleCreateTrade seeded 1 "kernelcoin" 100
        "litecoin" 50).1 1 2 50).1 "kernelcoin" = 1950 := by
  decide!

/-- C2 (no negative balances), evaluated.  In scenario 1 every balance is
non-negative; a fill of A's order by B with quantity -2000 passes both
balance checks, returns no error and leaves B with -1000 kernelcoin and A
with -1000 litecoin. -/
theorem negative_quantity_fill :
    (∀ b ∈ scenario1.balances, 0 ≤ b.Litecoin ∧ 0 ≤ b.Kernelcoin) ∧
    (executeTrade scenario1 1 2 (-2000)).2 = none ∧
    getUserBalance (executeTrade scenario1 1 2 (-2000)).1 2 = some ⟨2, 3000, -1000⟩ ∧
    getUserBalance (executeTrade scenario1 1 2 (-2000)).1 1 = some ⟨1, -1000, 900⟩ := by
  decide!

/-- C6 (terminal orders cannot be filled), evaluated.  An order id that does
not exist is rejected with the state unchanged, but `executeTrade` never
reads the status: after A cancels the order of scenario 1 (and is refunded),
B's fill of 40 returns no error, moves the balances and records a fill; the
same happens on the order once a fill of 100 has completed it. -/
theorem executeTrade_on_terminal_order :
    executeTrade scenario1 7 2 40 = (scenario1, some Error.noRows) ∧
    (getTrade (cancelTrade scenario1 1 1).1 1).map (fun t => t.status)
      = some "cancelled" ∧
    (executeTrade (cancelTrade scenario1 1 1).1 1 2 40).2 = none ∧
    (executeTrade (cancelTrade scenario1 1 1).1 1 2 40).1.balances
      = [⟨1, 1040, 1000⟩, ⟨2, 960, 1040⟩] ∧
    (executeTrade (cancelTrade scenario1 1 1).1 1 2 40).1.trade_completions
      = [⟨1, 2, 40⟩] ∧
    (getTrade (executeTrade scenario1 1 2 100).1 1).map (fun t => t.status)
      = some "completed" ∧
    (executeTrade (executeTrade scenario1 1 2 100).1 1 2 40).2 = none ∧
    (executeTrade (executeTrade scenario1 1 2 100).1 1 2 40).1.balances
      = [⟨1, 1140, 900⟩, ⟨2, 860, 1140⟩] := by
  decide!

/-- C7 (terminal orders cannot be cancelled again), evaluated.  A cancels
the order of scenario 1 and is back at 1000 kernelcoin; `cancelTrade` never
reads the status, so a second cancellation of the same order returns no
error and credits the 100 kernelcoin again. -/
theorem cancelTrade_twice :
    (cancelTrade scenario1 1 1).2 = none ∧
    getUserBalance (cancelTrade scenario1 1 1).1 1 = some ⟨1, 1000, 1000⟩ ∧
    (getTrade (cancelTrade scenario1 1 1).1 1).map (fun t => t.status)
      = some "cancelled" ∧
    (cancelTrade (cancelTrade scenario1 1 1).1 1 1).2 = none ∧
    getUserBalance (cancelTrade (cancelTrade scenario1 1 1).1 1 1).1 1
      = some ⟨1, 1000, 1100⟩ := by
  decide!

/-- C8 (completion on cumulative fills), evaluated on scenarios 2 and 3.
`executeTrade` compares the quantity of the current fill alone with
`amount_buying`: after fills of 40 and 60 against the order wanting 100 both
succeed, the recorded quantities sum to 100 and the order is still open. -/
theorem fills_40_then_60 :
    (executeTrade scenario1 1 2 40).2 = none ∧
    (executeTrade (executeTrade scenario1 1 2 40).1 1 2 60).2 = none ∧
    filledQuantity (executeTrade (executeTrade scenario1 1 2 40).1 1 2 60).1 1 = 100 ∧
    (getTrade scenario1 1).map (fun t => t.amount_buying) = some 100 ∧
    (getTrade (executeTrade (executeTrade scenario1 1 2 40).1 1 2 60).1 1).map
      (fun t => t.status) = some "open" := by
  decide!

/-- C9 (insufficient reserve), evaluated.  `executeTrade` compares the
receive-amount with the seller's current balance in `coin_selling`, not with
what the order reserved: in scenario 1 the order reserved 100 kernelcoin and
has no fill, A's free kernelcoin is 900, and B's fill of 500 returns no error
and credits B 500 kernelcoin. -/
theorem fill_beyond_reserve :
    (getTrade scenario1 1).map (fun t => t.amount_selling) = some 100 ∧
    filledQuantity scenario1 1 = 0 ∧
    (getTrade scenario1 1).map (fun t => buyerReceivesAmount t 500) = some 500 ∧
    (executeTrade scenario1 1 2 500).2 = none ∧
    getUserBalance (executeTrade scenario1 1 2 500).1 2 = some ⟨2, 500, 1500⟩ ∧
    (executeTrade scenario1 1 2 500).1.trade_completions = [⟨1, 2, 500⟩] := by
  decide!

/-- C11 (fill quantity must be positive), evaluated.  `handleExecuteTrade`
passes the decoded quantity to `executeTrade` and neither tests its sign: in
scenario 1 B's request with quantity 0 is answered with success and records a
fill of 0, and B's request with quantity -40 is answered with success and
moves 40 litecoin from A to B and takes 40 kernelcoin from B. -/
theorem handleExecuteTrade_nonpositive_quantity :
    (handleExecuteTrade scenario1 2 1 0).2 = Reply.success ∧
    (handleExecuteTrade scenario1 2 1 0).1.trade_completions = [⟨1, 2, 0⟩] ∧
    (handleExecuteTrade scenario1 2 1 0).1 ≠ scenario1 ∧
    (handleExecuteTrade scenario1 2 1 (-40)).2 = Reply.success ∧
    scenario1.balances = [⟨1, 1000, 900⟩, ⟨2, 1000, 1000⟩] ∧
    (handleExecuteTrade scenario1 2 1 (-40)).1.balances
      = [⟨1, 960, 900⟩, ⟨2, 1040, 960⟩] ∧
    (handleExecuteTrade scenario1 2 1 (-40)).1.trade_completions = [⟨1, 2, -40⟩] := by
  decide!

/-- C12 (create amounts must be positive), evaluated.  Neither
`handleCreateTrade` nor `createTrade` tests the sign of an amount: from the
seeded state A's request to sell -100 kernelcoin for 100 litecoin passes the
balance check, inserts an open order at price -1 and raises A's kernelcoin to
1100; a request to sell 100 kernelcoin for -100 litecoin inserts an open
order at price -1 and reserves 100 kernelcoin. -/
theorem handleCreateTrade_nonpositive_amount :
    (handleCreateTrade seeded 1 "kernelcoin" (-100) "litecoin" 100).2 = .ok 1 ∧
    (handleCreateTrade seeded 1 "kernelcoin" (-100) "litecoin" 100).1.trades
      = [⟨1, 1, "kernelcoin", -100, "litecoin", 100, -1, "open"⟩] ∧
    (handleCreateTrade seeded 1 "kernelcoin" (-100) "litecoin" 100).1.balances
      = [⟨1, 1000, 1100⟩, ⟨2, 1000, 1000⟩] ∧
    (handleCreateTrade seeded 1 "kernelcoin" 100 "litecoin" (-100)).2 = .ok 1 ∧
    (handleCreateTrade seeded 1 "kernelcoin" 100 "litecoin" (-100)).1.trades
      = [⟨1, 1, "kernelcoin", 100, "litecoin", -100, -1, "open"⟩] ∧
    (handleCreateTrade seeded 1 "kernelcoin" 100 "litecoin" (-100)).1.balances
      = [⟨1, 1000, 900⟩, ⟨2, 1000, 1000⟩] := by
  decide!

/-! ## Rejected creates and cancellations -/

/-- C13, as stated, evaluated on scenario 5.  A has 0 kernelcoin and ten
open orders; the request to sell 100 kernelcoin is turned down by the test of
the open-order count, which comes first, so the reply is not
`Insufficient balance`. -/
theorem handleCreateTrade_cap_before_balance :
    (getUserBalance scenario5 1).map (fun b => coinBalance b "kernelcoin") = some 0 ∧
    handleCreateTrade scenario5 1 "kernelcoin" 100 "litecoin" 100
      = (scenario5, .error "Maximum of 10 active trades allowed per account") ∧
    (handleCreateTrade scenario5 1 "kernelcoin" 100 "litecoin" 100).2
      ≠ .error "Insufficient balance" := by
  decide!

/-- C13 (create with insufficient balance), amended.  For a create request of
a seller with fewer than 10 open orders that sells litecoin or kernelcoin and
whose balance in that coin is strictly less than `amountSelling`,
`handleCreateTrade` replies `Insufficient balance` and leaves the state as it
was: no order is inserted and no balance changes. -/
theorem handleCreateTrade_insufficient_balance (s : Server) (userID : Int)
    (coinSelling : String) (amountSelling : ℚ) (coinBuying : String)
    (amountBuying : ℚ) (bal : Balance)
    (hcount : activeTradesCount s userID < 10)
    (hbal : getUserBalance s userID = some bal)
    (hlt : (coinSelling = "litecoin" ∧ bal.Litecoin < amountSelling) ∨
      (coinSelling = "kernelcoin" ∧ bal.Kernelcoin < amountSelling)) :
    handleCreateTrade s userID coinSelling amountSelling coinBuying amountBuying
      = (s, .error "Insufficient balance") := by
  have hcnt : ¬ activeTradesCount s userID ≥ 10 := by omega
  have hread : coinBalance bal coinSelling < amountSelling := by
    rcases hlt with ⟨hc, h⟩ | ⟨hc, h⟩
    · rw [hc]
      exact h
    · rw [hc]
      exact h
  unfold handleCreateTrade
  simp only [hcnt, if_false, hbal, hread, if_true]

/-- An instance of the amended C13: B, with 1000 kernelcoin and no order,
asks to sell 1500 kernelcoin. -/
theorem handleCreateTrade_insufficient_balance_witness :
    handleCreateTrade scenario1 2 "kernelcoin" 1500 "litecoin" 100
      = (scenario1, .error "Insufficient balance") :=
  handleCreateTrade_insufficient_balance scenario1 2 "kernelcoin" 1500 "litecoin" 100
    ⟨2, 1000, 1000⟩ (by decide) (by decide!) (Or.inr ⟨rfl, by decide!⟩)

/-- C14 (open-order cap rejection).  For a seller who already has 10 or more
open orders, `handleCreateTrade` replies with the maximum-active-trades error
and leaves the state as it was, whatever the request and the balances are. -/
theorem handleCreateTrade_cap (s : Server) (userID : Int) (coinSelling : String)
    (amountSelling : ℚ) (coinBuying : String) (amountBuying : ℚ)
    (hcount : activeTradesCount s userID ≥ 10) :
    handleCreateTrade s userID coinSelling amountSelling coinBuying amountBuying
      = (s, .error "Maximum of 10 active trades allowed per account") := by
  unfold handleCreateTrade
  simp only [hcount, if_true]

/-- Scenario 5 of the specification, as an instance of the cap rejection: the
eleventh create of A is refused and the state is unchanged. -/
theorem handleCreateTrade_cap_witness :
    activeTradesCount scenario5 1 = 10 ∧
    handleCreateTrade scenario5 1 "litecoin" 1 "kernelcoin" 1
      = (scenario5, .error "Maximum of 10 active trades allowed per account") :=
  ⟨by decide!, handleCreateTrade_cap scenario5 1 "litecoin" 1 "kernelcoin" 1 (by decide!)⟩

/-- C16 (cancellation ownership).  For an existing order and a requester
whose id differs from the order's `seller_id`, `cancelTrade` returns the
error `cannot cancel trade you don't own` and leaves the state as it was:
every balance and the order's status are unchanged. -/
theorem cancelTrade_not_owner (s : Server) (tradeID userID : Int) (trade : Trade)
    (ht : getTrade s tradeID = some trade)
    (hne : trade.seller_id ≠ userID) :
    cancelTrade s tradeID userID
      = (s, some (Error.msg "cannot cancel trade you don't own")) := by
  unfold cancelTrade
  simp only [ht, hne, ne_eq, not_false_eq_true, if_true]

/-- An instance of the ownership rule: B tries to cancel A's order of
scenario 1. -/
theorem cancelTrade_not_owner_witness :
    cancelTrade scenario1 1 2
      = (scenario1, some (Error.msg "cannot cancel trade you don't own")) :=
  cancelTrade_not_owner scenario1 1 2
    ⟨1, 1, "kernelcoin", 100, "litecoin", 100, 1, "open"⟩ (by decide!) (by decide)

/-! ## Fills that are not accounted against the order -/

/-- C18 (cancellation refund over-credit).  There are an initial state
without orders and a sequence create, partial fill by another account, cancel
by the seller, each answered with success, after which the seller's balance
in the coin sold is what it was before the order was created, the buyer still
holds the coins received from the fill, and the total of that coin over all
balances is strictly greater than in the initial state. -/
theorem cancel_refund_over_credit :
    ∃ (s0 : Server) (seller buyer : Int) (amount quantity : ℚ),
      s0.trades = [] ∧ seller ≠ buyer ∧ 0 < quantity ∧ quantity < amount ∧
      (handleCreateTrade s0 seller "kernelcoin" amount "litecoin" amount).2 = .ok 1 ∧
      (handleExecuteTrade (run s0 [Request.create seller "kernelcoin" amount
          "litecoin" amount]) buyer 1 quantity).2 = Reply.success ∧
      (handleCancelTrade (run s0 [Request.create seller "kernelcoin" amount
          "litecoin" amount, Request.fill buyer 1 quantity]) seller 1).2
        = Reply.success ∧
      (getUserBalance (run s0 [Request.create seller "kernelcoin" amount
          "litecoin" amount, Request.fill buyer 1 quantity,
          Request.cancel seller 1]) seller).map (fun b => b.Kernelcoin)
        = (getUserBalance s0 seller).map (fun b => b.Kernelcoin) ∧
      (getUserBalance (run s0 [Request.create seller "kernelcoin" amount
          "litecoin" amount, Request.fill buyer 1 quantity,
          Request.cancel seller 1]) buyer).map (fun b => b.Kernelcoin)
        = (getUserBalance s0 buyer).map (fun b => b.Kernelcoin + quantity) ∧
      totalBalance s0 "kernelcoin"
        < totalBalance (run s0 [Request.create seller "kernelcoin" amount
            "litecoin" amount, Request.fill buyer 1 quantity,
            Request.cancel seller 1]) "kernelcoin" := by
  refine ⟨seeded, 1, 2, 100, 40, ?_⟩
  decide!

/-- C19 (fill overshoot).  There are an open order and two fills of it that
both succeed and whose recorded quantities sum to strictly more than the
order's `amount_buying`: on the order of scenario 1, wanting 100, B fills 40
and then 80.  The second fill is neither rejected nor clamped to the 60 that
remained: it is recorded with quantity 80 and moves 80 litecoin from B to A
and credits B 80 kernelcoin. -/
theorem fill_overshoot :
    ∃ (s : Server) (tradeID buyerID : Int) (q1 q2 : ℚ) (trade : Trade),
      getTrade s tradeID = some trade ∧ trade.status = "open" ∧
      trade.amount_buying = 100 ∧ trade.price_per_unit = 1 ∧
      filledQuantity s tradeID = 0 ∧
      (executeTrade s tradeID buyerID q1).2 = none ∧
      (executeTrade (executeTrade s tradeID buyerID q1).1 tradeID buyerID q2).2 = none ∧
      trade.amount_buying - q1 < q2 ∧
      trade.amount_buying < filledQuantity
        (executeTrade (executeTrade s tradeID buyerID q1).1 tradeID buyerID q2).1 tradeID ∧
      (executeTrade (executeTrade s tradeID buyerID q1).1 tradeID buyerID
        q2).1.trade_completions = [⟨tradeID, buyerID, q1⟩, ⟨tradeID, buyerID, q2⟩] ∧
      (executeTrade s tradeID buyerID q1).1.balances
        = [⟨1, 1040, 900⟩, ⟨2, 960, 1040⟩] ∧
      (executeTrade (executeTrade s tradeID buyerID q1).1 tradeID buyerID q2).1.balances
        = [⟨1, 1040 + q2, 900⟩, ⟨2, 960 - q2, 1040 + q2⟩] := by
  refine ⟨scenario1, 1, 2, 40, 80,
    ⟨1, 1, "kernelcoin", 100, "litecoin", 100, 1, "open"⟩, ?_⟩
  decide!

/-! ## An error that leaves a write behind -/

/-- C20 (all-or-nothing operations), evaluated.  `createTrade` for 5
`dogecoin` against 5 litecoin returns an error, from the reservation
statement, and the state it leaves is not the state it was given: the order
inserted before is there, open, and nothing was deducted from the seller.
The order can be filled: `executeTrade` by account 2 for 5 returns no error,
credits the buyer 5 kernelcoin that were never reserved and marks the order
completed, so that the kernelcoin held by the two accounts goes from 2000 to
2005. -/
theorem createTrade_error_keeps_order :
    createTrade seeded 1 "dogecoin" 5 "litecoin" 5
      = (⟨[⟨1, 1000, 1000⟩, ⟨2, 1000, 1000⟩],
          [⟨1, 1, "dogecoin", 5, "litecoin", 5, 1, "open"⟩], []⟩,
         1, some Error.sqlExec) ∧
    (createTrade seeded 1 "dogecoin" 5 "litecoin" 5).1 ≠ seeded ∧
    executeTrade (createTrade seeded 1 "dogecoin" 5 "litecoin" 5).1 1 2 5
      = (⟨[⟨1, 1005, 1000⟩, ⟨2, 995, 1005⟩],
          [⟨1, 1, "dogecoin", 5, "litecoin", 5, 1, "completed"⟩], [⟨1, 2, 5⟩]⟩,
         none) ∧
    totalBalance seeded "kernelcoin" = 2000 ∧
    totalBalance
      (executeTrade (createTrade seeded 1 "dogecoin" 5 "litecoin" 5).1 1 2 5).1
      "kernelcoin" = 2005 := by
  decide!

/-! ## What the fill checks do and do not guarantee -/

/-- C27 (fill currencies match the order), evaluated.  `handleCreateTrade`
accepts an order whose two coins are the same: A sells 100 kernelcoin for 100
kernelcoin.  `executeTrade` derives both coins of the fill from `coin_buying`
alone, so B's fill of 40 debits B 40 kernelcoin, credits A 40 kernelcoin and
credits B 40 litecoin, which is not the order's `coin_selling`. -/
theorem fill_of_same_coin_order :
    (handleCreateTrade seeded 1 "kernelcoin" 100 "kernelcoin" 100).2 = .ok 1 ∧
    (handleCreateTrade seeded 1 "kernelcoin" 100 "kernelcoin" 100).1
      = ⟨[⟨1, 1000, 900⟩, ⟨2, 1000, 1000⟩],
         [⟨1, 1, "kernelcoin", 100, "kernelcoin", 100, 1, "open"⟩], []⟩ ∧
    (executeTrade (handleCreateTrade seeded 1 "kernelcoin" 100 "kernelcoin" 100).1
      1 2 40).2 = none ∧
    (executeTrade (handleCreateTrade seeded 1 "kernelcoin" 100 "kernelcoin" 100).1
      1 2 40).1.balances = [⟨1, 1000, 940⟩, ⟨2, 1040, 960⟩] ∧
    buyerReceives ⟨1, 1, "kernelcoin", 100, "kernelcoin", 100, 1, "open"⟩ = "litecoin" := by
  decide!

/-! ## The operations in float64 arithmetic -/

set_option maxRecDepth 100000

/-- With the identity as rounding, `createTradeFl` is `createTrade`. -/
theorem createTradeFl_id (s : Server) (sellerID : Int) (coinSelling : String)
    (amountSelling : ℚ) (coinBuying : String) (amountBuying : ℚ) :
    createTradeFl id s sellerID coinSelling amountSelling coinBuying amountBuying
      = createTrade s sellerID coinSelling amountSelling coinBuying amountBuying :=
  rfl

/-- With the identity as rounding, `handleCreateTradeFl` is `handleCreateTrade`. -/
theorem handleCreateTradeFl_id (s : Server) (userID : Int) (coinSelling : String)
    (amountSelling : ℚ) (coinBuying : String) (amountBuying : ℚ) :
    handleCreateTradeFl id s userID coinSelling amountSelling coinBuying amountBuying
      = handleCreateTrade s userID coinSelling amountSelling coinBuying amountBuying :=
  rfl

/-- With the identity as rounding, `executeTradeFl` is `executeTrade`. -/
theorem executeTradeFl_id (s : Server) (tradeID buyerID : Int) (quantity : ℚ) :
    executeTradeFl id s tradeID buyerID quantity
      = executeTrade s tradeID buyerID quantity :=
  rfl

/-- With the identity as rounding, `handleWithdrawFl` is `handleWithdraw`. -/
theorem handleWithdrawFl_id (sendToAddress payTo : String → ℚ → Except String String)
    (w : WalletServer) (userID : Int) (coin : String) (amount : ℚ) :
    handleWithdrawFl id sendToAddress payTo w userID coin amount
      = handleWithdraw sendToAddress payTo w userID coin amount :=
  rfl

theorem updateBalanceFl_column (fl : ℚ → ℚ) (s : Server) (col : String) (delta : ℚ)
    (u : Int) (hcol : col = "litecoin" ∨ col = "kernelcoin") :
    updateBalanceFl fl s col delta u =
      some { s with balances := adjustRowsFl fl s.balances col delta u } := by
  simp [updateBalanceFl, hcol]

/-! ### The rounding of binary64 -/

theorem pow2_eq_zpow (e : Int) : pow2 e = (2 : ℚ) ^ e := by
  unfold pow2
  split
  · rename_i h
    obtain ⟨n, rfl⟩ := Int.eq_ofNat_of_zero_le h
    simp
  · rename_i h
    have h' : 0 ≤ -e := by omega
    obtain ⟨n, hn⟩ := Int.eq_ofNat_of_zero_le h'
    have he : e = -(n : Int) := by omega
    subst he
    simp

theorem pow2_pos (e : Int) : 0 < pow2 e := by
  rw [pow2_eq_zpow]
  exact zpow_pos (by norm_num) e

theorem pow2_add (a b : Int) : pow2 (a + b) = pow2 a * pow2 b := by
  simp only [pow2_eq_zpow]
  exact zpow_add₀ (by norm_num) a b

theorem pow2_le_pow2 {a b : Int} (h : a ≤ b) : pow2 a ≤ pow2 b := by
  simp only [pow2_eq_zpow]
  exact zpow_le_zpow_right₀ (by norm_num) h

theorem pow2_natCast (n : Nat) : pow2 (n : Int) = ((2 ^ n : Nat) : ℚ) := by
  rw [pow2_eq_zpow]
  simp

theorem log2Fuel_spec (fuel : Nat) : ∀ n : Nat, 1 ≤ n → n ≤ fuel →
    2 ^ log2Fuel fuel n ≤ n ∧ n < 2 ^ (log2Fuel fuel n + 1) := by
  induction fuel with
  | zero => intro n h1 h2; omega
  | succ fuel ih =>
    intro n h1 h2
    unfold log2Fuel
    split
    · rename_i hlt
      simp
      omega
    · rename_i hge
      have hn2 : 2 ≤ n := by omega
      obtain ⟨h3, h4⟩ := ih (n / 2) (by omega) (by omega)
      constructor
      · rw [pow_succ]
        omega
      · rw [pow_succ]
        omega

theorem bitLog_spec (n : Nat) (hn : 1 ≤ n) :
    2 ^ bitLog n ≤ n ∧ n < 2 ^ (bitLog n + 1) :=
  log2Fuel_spec n n hn (le_refl n)

/-- The exponent found by `floorLog2` brackets a positive `q`. -/
theorem floorLog2_spec (q : ℚ) (hq : 0 < q) :
    pow2 (floorLog2 q) ≤ q ∧ q < pow2 (floorLog2 q + 1) := by
  have hnum : 0 < q.num := Rat.num_pos.mpr hq
  have hden : 0 < q.den := q.den_pos
  obtain ⟨n1, n2⟩ := bitLog_spec q.num.natAbs (by omega)
  obtain ⟨d1, d2⟩ := bitLog_spec q.den (by omega)
  have hqeq : q = (q.num.natAbs : ℚ) / (q.den : ℚ) := by
    have h2 : (q.num.natAbs : ℚ) = (q.num : ℚ) := by
      rw [Nat.cast_natAbs, abs_of_pos hnum]
    rw [h2]
    exact (Rat.num_div_den q).symm
  set N := q.num.natAbs with hN
  set D := q.den with hD
  set ln := bitLog N with hln
  set ld := bitLog D with hld
  have hDpos : (0 : ℚ) < (D : ℚ) := by exact_mod_cast hden
  have n1' : ((2 ^ ln : Nat) : ℚ) ≤ (N : ℚ) := by exact_mod_cast n1
  have n2' : (N : ℚ) < ((2 ^ (ln + 1) : Nat) : ℚ) := by exact_mod_cast n2
  have d1' : ((2 ^ ld : Nat) : ℚ) ≤ (D : ℚ) := by exact_mod_cast d1
  have d2' : (D : ℚ) < ((2 ^ (ld + 1) : Nat) : ℚ) := by exact_mod_cast d2
  -- upper bound: q < pow2 (ln - ld + 1)
  have hup : q < pow2 ((ln : Int) - (ld : Int) + 1) := by
    have hsplit : pow2 ((ln : Int) - (ld : Int) + 1) * pow2 (ld : Int)
        = pow2 ((ln + 1 : Nat) : Int) := by
      rw [← pow2_add]
      congr 1
      push_cast
      ring
    rw [hqeq, div_lt_iff₀ hDpos]
    calc (N : ℚ) < pow2 ((ln + 1 : Nat) : Int) := by rw [pow2_natCast]; exact n2'
      _ = pow2 ((ln : Int) - (ld : Int) + 1) * pow2 (ld : Int) := hsplit.symm
      _ ≤ pow2 ((ln : Int) - (ld : Int) + 1) * (D : ℚ) := by
          apply mul_le_mul_of_nonneg_left _ (le_of_lt (pow2_pos _))
          rw [pow2_natCast]
          exact d1'
  -- lower bound: pow2 (ln - ld - 1) ≤ q
  have hlow : pow2 ((ln : Int) - (ld : Int) - 1) ≤ q := by
    have hsplit : pow2 ((ln : Int) - (ld : Int) - 1) * pow2 ((ld + 1 : Nat) : Int)
        = pow2 (ln : Int) := by
      rw [← pow2_add]
      congr 1
      push_cast
      ring
    rw [hqeq, le_div_iff₀ hDpos]
    calc pow2 ((ln : Int) - (ld : Int) - 1) * (D : ℚ)
        ≤ pow2 ((ln : Int) - (ld : Int) - 1) * pow2 ((ld + 1 : Nat) : Int) := by
          apply mul_le_mul_of_nonneg_left _ (le_of_lt (pow2_pos _))
          rw [pow2_natCast]
          exact le_of_lt d2'
      _ = pow2 (ln : Int) := hsplit
      _ ≤ (N : ℚ) := by rw [pow2_natCast]; exact n1'
  unfold floorLog2
  simp only
  rw [← hN, ← hD, ← hln, ← hld]
  split
  · rename_i h
    exact ⟨h, hup⟩
  · rename_i h
    refine ⟨hlow, ?_⟩
    have : (ln : Int) - (ld : Int) - 1 + 1 = (ln : Int) - (ld : Int) := by ring
    rw [this]
    exact not_le.mp h

theorem roundEven_bounds (m : ℚ) :
    (⌊m⌋ ≤ roundEven m) ∧ (roundEven m ≤ ⌊m⌋ + 1) := by
  have hf : Rat.floor m = ⌊m⌋ := rfl
  unfold roundEven
  simp only [hf]
  split
  · constructor <;> omega
  · split
    · constructor <;> omega
    · split <;> constructor <;> omega

theorem roundEven_mono {m m' : ℚ} (h : m ≤ m') : roundEven m ≤ roundEven m' := by
  have hff : ⌊m⌋ ≤ ⌊m'⌋ := Int.floor_mono h
  rcases lt_or_eq_of_le hff with hlt | heq
  · have := (roundEven_bounds m).2
    have := (roundEven_bounds m').1
    omega
  · have hf : Rat.floor m = ⌊m⌋ := rfl
    have hf' : Rat.floor m' = ⌊m'⌋ := rfl
    have hr : m - (⌊m⌋ : ℚ) ≤ m' - (⌊m⌋ : ℚ) := by linarith
    unfold roundEven
    simp only [hf, hf', ← heq]
    by_cases h1 : m - (⌊m⌋ : ℚ) < 1 / 2
    · simp only [h1, if_true]
      split
      · exact le_refl _
      · split
        · omega
        · split <;> omega
    · simp only [h1, if_false]
      have h1' : ¬ m' - (⌊m⌋ : ℚ) < 1 / 2 := by
        intro hc
        exact h1 (lt_of_le_of_lt hr hc)
      simp only [h1', if_false]
      by_cases h2 : 1 / 2 < m - (⌊m⌋ : ℚ)
      · have h2' : 1 / 2 < m' - (⌊m⌋ : ℚ) := lt_of_lt_of_le h2 hr
        simp only [h2, h2', if_true]
        exact le_refl _
      · simp only [h2, if_false]
        split
        · split <;> omega
        · split
          · omega
          · exact le_refl _

theorem roundEven_intCast (n : Int) : roundEven (n : ℚ) = n := by
  have hf : Rat.floor (n : ℚ) = n := by
    show ⌊(n : ℚ)⌋ = n
    exact Int.floor_intCast n
  unfold roundEven
  simp only [hf, sub_self]
  norm_num

/-- On a positive argument `float64` is the rounded significand times the
spacing. -/
theorem float64_of_pos {q : ℚ} (hq : 0 < q) :
    float64 q = (roundEven (q / pow2 (max (floorLog2 q - 52) (-1074))) : ℚ)
      * pow2 (max (floorLog2 q - 52) (-1074)) := by
  unfold float64
  have h0 : ¬ q = 0 := ne_of_gt hq
  have hn : ¬ q < 0 := not_lt.mpr (le_of_lt hq)
  simp only [h0, if_false, hn, abs_of_pos hq]

theorem float64_of_neg {q : ℚ} (hq : q < 0) : float64 q = -float64 (-q) := by
  have hpos : 0 < -q := neg_pos.mpr hq
  rw [float64_of_pos hpos]
  unfold float64
  have h0 : ¬ q = 0 := ne_of_lt hq
  simp only [h0, if_false, hq, if_true, abs_of_neg hq]

theorem float64_zero : float64 0 = 0 := by
  unfold float64
  simp

theorem float64_nonneg {q : ℚ} (hq : 0 < q) : 0 ≤ float64 q := by
  rw [float64_of_pos hq]
  apply mul_nonneg _ (le_of_lt (pow2_pos _))
  have h : (0 : ℚ) ≤ q / pow2 (max (floorLog2 q - 52) (-1074)) :=
    div_nonneg (le_of_lt hq) (le_of_lt (pow2_pos _))
  have := roundEven_mono h
  have h0 : roundEven ((0 : Int) : ℚ) = 0 := roundEven_intCast 0
  simp only [Int.cast_zero] at h0
  rw [h0] at this
  exact_mod_cast this

theorem float64_mono_pos {a b : ℚ} (ha : 0 < a) (hab : a ≤ b) :
    float64 a ≤ float64 b := by
  have hb : 0 < b := lt_of_lt_of_le ha hab
  obtain ⟨a1, a2⟩ := floorLog2_spec a ha
  obtain ⟨b1, b2⟩ := floorLog2_spec b hb
  rw [float64_of_pos ha, float64_of_pos hb]
  set ea := floorLog2 a with hea
  set eb := floorLog2 b with heb
  have hee : ea ≤ eb := by
    by_contra hc
    have h1 : eb + 1 ≤ ea := by omega
    have := pow2_le_pow2 h1
    linarith
  set pa := max (ea - 52) (-1074) with hpa
  set pb := max (eb - 52) (-1074) with hpb
  have hpp : pa ≤ pb := by omega
  rcases lt_or_eq_of_le hpp with hlt | heq
  · -- different spacings: the power `2 ^ eb` lies between the two results
    have hpbe : pb = eb - 52 := by omega
    have hbig : pow2 eb ≤ (roundEven (b / pow2 pb) : ℚ) * pow2 pb := by
      have h52 : pow2 eb = ((2 ^ 52 : Int) : ℚ) * pow2 pb := by
        have : ((2 ^ 52 : Int) : ℚ) = pow2 52 := by
          rw [pow2_eq_zpow]
          norm_num
        rw [this, ← pow2_add]
        congr 1
        omega
      rw [h52]
      apply mul_le_mul_of_nonneg_right _ (le_of_lt (pow2_pos _))
      have hle : ((2 ^ 52 : Int) : ℚ) ≤ b / pow2 pb := by
        rw [le_div_iff₀ (pow2_pos _), ← h52]
        exact b1
      have := roundEven_mono hle
      rw [roundEven_intCast] at this
      exact_mod_cast this
    have hsmall : (roundEven (a / pow2 pa) : ℚ) * pow2 pa ≤ pow2 eb := by
      set k : Nat := (ea + 1 - pa).toNat with hk
      have hk2 : ((2 ^ k : Int) : ℚ) = pow2 (k : Int) := by
        rw [pow2_natCast]
        push_cast
        rfl
      have hle : a / pow2 pa ≤ ((2 ^ k : Int) : ℚ) := by
        rw [div_le_iff₀ (pow2_pos _), hk2, ← pow2_add]
        apply le_trans (le_of_lt a2)
        apply pow2_le_pow2
        omega
      have := roundEven_mono hle
      rw [roundEven_intCast] at this
      have h3 : (roundEven (a / pow2 pa) : ℚ) ≤ ((2 ^ k : Int) : ℚ) := by
        exact_mod_cast this
      calc (roundEven (a / pow2 pa) : ℚ) * pow2 pa
          ≤ ((2 ^ k : Int) : ℚ) * pow2 pa :=
            mul_le_mul_of_nonneg_right h3 (le_of_lt (pow2_pos _))
        _ = pow2 ((k : Int) + pa) := by rw [hk2, ← pow2_add]
        _ ≤ pow2 eb := by
            apply pow2_le_pow2
            omega
    exact le_trans hsmall hbig
  · rw [← heq]
    apply mul_le_mul_of_nonneg_right _ (le_of_lt (pow2_pos _))
    have hle : a / pow2 pa ≤ b / pow2 pa :=
      div_le_div_of_nonneg_right hab (le_of_lt (pow2_pos _))
    exact_mod_cast roundEven_mono hle

/-- Rounding to binary64 is monotone. -/
theorem float64_monotone : Monotone float64 := by
  intro a b hab
  rcases lt_trichotomy a 0 with ha | ha | ha
  · rcases lt_trichotomy b 0 with hb | hb | hb
    · rw [float64_of_neg ha, float64_of_neg hb]
      have := float64_mono_pos (neg_pos.mpr hb) (neg_le_neg hab)
      linarith
    · rw [hb, float64_zero, float64_of_neg ha]
      have := float64_nonneg (neg_pos.mpr ha)
      linarith
    · rw [float64_of_neg ha]
      have h1 := float64_nonneg (neg_pos.mpr ha)
      have h2 := float64_nonneg hb
      linarith
  · rw [ha, float64_zero]
    rcases lt_or_eq_of_le (ha ▸ hab) with hb | hb
    · exact float64_nonneg hb
    · rw [← hb, float64_zero]
  · exact float64_mono_pos ha hab

/-! ### The stored price -/

/-- C17 (price formula), the create on which the claim as stated fails.
Account 1 sells 49 kernelcoin for 1 litecoin.  The stored price is the
float64 nearest to 1/49, which is not 1/49, and its product with the 49
kernelcoin is not the litecoin amount 1, neither the exact product nor the
product rounded to float64. -/
theorem createTrade_price_rounded :
    getTrade (createTradeFl float64 seeded 1 "kernelcoin" 49 "litecoin" 1).1 1
      = some ⟨1, 1, "kernelcoin", 49, "litecoin", 1,
          5882252574524729 / 288230376151711744, "open"⟩ ∧
    (5882252574524729 / 288230376151711744 : ℚ) ≠ 1 / 49 ∧
    (5882252574524729 / 288230376151711744 : ℚ) * 49 ≠ 1 ∧
    float64 ((5882252574524729 / 288230376151711744 : ℚ) * 49)
      = 9007199254740991 / 9007199254740992 ∧
    (9007199254740991 / 9007199254740992 : ℚ) ≠ 1 := by
  decide!

/-- C17 (price formula), amended.  For a create between kernelcoin and
litecoin with both amounts positive, the order `createTrade` stores under
the id it returns carries the requested amounts and a `price_per_unit` equal
to the rounded quotient of the litecoin amount by the kernelcoin amount in
both directions: `fl (amountBuying / amountSelling)` when kernelcoin is sold
and `fl (amountSelling / amountBuying)` when litecoin is sold.  When the
rounding leaves the quotient as it is, the price times the kernelcoin amount
is the litecoin amount. -/
theorem createTrade_price (fl : ℚ → ℚ) (s : Server) (sellerID : Int)
    (coinSelling : String) (amountSelling : ℚ) (coinBuying : String)
    (amountBuying : ℚ)
    (hpair : (coinSelling = "kernelcoin" ∧ coinBuying = "litecoin") ∨
      (coinSelling = "litecoin" ∧ coinBuying = "kernelcoin"))
    (hs : 0 < amountSelling) (hb : 0 < amountBuying) :
    ∃ price : ℚ,
      getTrade
        (createTradeFl fl s sellerID coinSelling amountSelling coinBuying amountBuying).1
        (createTradeFl fl s sellerID coinSelling amountSelling coinBuying
          amountBuying).2.1
        = some ⟨nextTradeID s, sellerID, coinSelling, amountSelling, coinBuying,
            amountBuying, price, "open"⟩ ∧
      (coinSelling = "kernelcoin" →
        price = fl (amountBuying / amountSelling) ∧
        (fl (amountBuying / amountSelling) = amountBuying / amountSelling →
          price * amountSelling = amountBuying)) ∧
      (coinSelling = "litecoin" →
        price = fl (amountSelling / amountBuying) ∧
        (fl (amountSelling / amountBuying) = amountSelling / amountBuying →
          price * amountBuying = amountSelling)) := by
  have hcol : coinSelling = "litecoin" ∨ coinSelling = "kernelcoin" := by
    rcases hpair with ⟨h, -⟩ | ⟨h, -⟩
    · exact Or.inr h
    · exact Or.inl h
  have hfresh := getTrade_nextTradeID s
  have hne : ¬ ("litecoin" = "kernelcoin") := by decide
  have hnz : ¬ (amountSelling = 0 ∧ amountBuying = 0) := fun h => (ne_of_gt hs) h.1
  refine ⟨if coinSelling = "kernelcoin" then fl (amountBuying / amountSelling)
    else fl (amountSelling / amountBuying), ?_, ?_, ?_⟩
  · unfold createTradeFl
    simp only [hnz, if_false, updateBalanceFl_column _ _ _ _ _ hcol]
    unfold getTrade at hfresh ⊢
    simp only
    rw [List.find?_append, hfresh]
    simp
  · intro hk
    rw [if_pos hk]
    refine ⟨rfl, fun hex => ?_⟩
    rw [hex]
    exact div_mul_cancel₀ _ (ne_of_gt hs)
  · intro hl
    have hnk : ¬ coinSelling = "kernelcoin" := by
      rw [hl]
      exact hne
    rw [if_neg hnk]
    refine ⟨rfl, fun hex => ?_⟩
    rw [hex]
    exact div_mul_cancel₀ _ (ne_of_gt hb)

/-- An instance of the price formula in float64: 50 litecoin sold for 200
kernelcoin is stored at the price 1/4, a quotient float64 represents, and the
price times the 200 kernelcoin is the 50 litecoin. -/
theorem createTrade_price_witness :
    ∃ price : ℚ,
      getTrade (createTradeFl float64 seeded 1 "litecoin" 50 "kernelcoin" 200).1
        (createTradeFl float64 seeded 1 "litecoin" 50 "kernelcoin" 200).2.1
        = some ⟨nextTradeID seeded, 1, "litecoin", 50, "kernelcoin", 200, price, "open"⟩ ∧
      price = 1 / 4 ∧ price * 200 = 50 := by
  obtain ⟨price, h1, -, h3⟩ :=
    createTrade_price float64 seeded 1 "litecoin" 50 "kernelcoin" 200
      (Or.inr ⟨rfl, rfl⟩) (by norm_num) (by norm_num)
  have hfl : float64 (50 / 200) = 50 / 200 := by decide!
  obtain ⟨hp, hprod⟩ := h3 rfl
  refine ⟨price, h1, ?_, hprod hfl⟩
  rw [hp, hfl]
  norm_num

/-! ### The seller check of a fill -/

/-- C28 (seller-balance gate on fills), the fill on which the claim as stated
fails.  Account 1 sells its 1000 litecoin for `1000 * 2 ^ 600` kernelcoin: the
order is open at the positive price `2 ^ (-600)` and the seller's litecoin
balance is 0.  Account 2 fills the positive quantity `2 ^ (-600)`.  The
receive-amount, the float64 product of quantity and price, is 0, the seller
check `0 < 0` lets the fill through, and `executeTrade` returns no error and
records the fill. -/
theorem executeTrade_gate_underflow :
    handleCreateTradeFl float64 seeded 1 "litecoin" 1000 "kernelcoin" (1000 * 2 ^ 600)
      = (⟨[⟨1, 0, 1000⟩, ⟨2, 1000, 1000⟩],
          [⟨1, 1, "litecoin", 1000, "kernelcoin", 1000 * 2 ^ 600, pow2 (-600), "open"⟩],
          []⟩, .ok 1) ∧
    0 < pow2 (-600) ∧
    float64 (pow2 (-600) * pow2 (-600)) = 0 ∧
    executeTradeFl float64
      (handleCreateTradeFl float64 seeded 1 "litecoin" 1000 "kernelcoin"
        (1000 * 2 ^ 600)).1 1 2 (pow2 (-600))
      = (⟨[⟨1, 0, 1000⟩, ⟨2, 1000, 1000⟩],
          [⟨1, 1, "litecoin", 1000, "kernelcoin", 1000 * 2 ^ 600, pow2 (-600), "open"⟩],
          [⟨1, 2, pow2 (-600)⟩]⟩, none) := by
  decide!

/-- C28 (seller-balance gate on fills), amended.  For a stored order whose
seller's current balance in `coin_selling` is 0 and a fill whose
receive-amount as `executeTrade` computes it (the rounded product of quantity
and price when the order buys kernelcoin, the quantity otherwise) is
positive, `executeTrade` returns an error and leaves the state as it was,
whoever the buyer is; when the buyer's own balance check passes the error is
`trade amount unavailable`. -/
theorem executeTrade_seller_balance_gate (fl : ℚ → ℚ) (s : Server)
    (tradeID buyerID : Int) (quantity : ℚ) (trade : Trade) (sellerBal : Balance)
    (ht : getTrade s tradeID = some trade)
    (hs : getUserBalance s trade.seller_id = some sellerBal)
    (hzero : coinBalance sellerBal trade.coin_selling = 0)
    (hrecv : 0 < (if trade.coin_buying = "kernelcoin"
      then fl (quantity * trade.price_per_unit) else quantity)) :
    (executeTradeFl fl s tradeID buyerID quantity).1 = s ∧
    (executeTradeFl fl s tradeID buyerID quantity).2 ≠ none ∧
    (∀ buyerBal, getUserBalance s buyerID = some buyerBal →
      ¬ coinBalance buyerBal (buyerGives trade)
          < (if trade.coin_buying = "kernelcoin" then quantity
             else fl (quantity * trade.price_per_unit)) →
      (executeTradeFl fl s tradeID buyerID quantity).2
        = some (Error.msg "trade amount unavailable")) := by
  have hgate : coinBalance sellerBal trade.coin_selling
      < buyerReceivesAmountFl fl trade quantity := by
    rw [hzero]
    exact hrecv
  unfold executeTradeFl
  simp only [ht]
  cases hb : getUserBalance s buyerID with
  | none => simp
  | some buyerBal =>
    by_cases h1 : coinBalance buyerBal (buyerGives trade)
        < buyerGivesAmountFl fl trade quantity
    · have h1' : coinBalance buyerBal (buyerGives trade)
          < (if trade.coin_buying = "kernelcoin" then quantity
             else fl (quantity * trade.price_per_unit)) := h1
      simp [h1, h1']
    · have h1' : ¬ coinBalance buyerBal (buyerGives trade)
          < (if trade.coin_buying = "kernelcoin" then quantity
             else fl (quantity * trade.price_per_unit)) := h1
      simp [h1, hs, hgate]

/-- An instance of the gate in float64: account 1 has sold its 1000 litecoin
for 500 kernelcoin (price 2) and has 0 litecoin left; account 2, with 1000
kernelcoin, asks for a quantity of 10, a receive-amount of 20 litecoin, and
is turned down with the state unchanged. -/
theorem executeTrade_seller_balance_gate_witness :
    executeTradeFl float64
      ⟨[⟨1, 0, 1000⟩, ⟨2, 1000, 1000⟩],
        [⟨1, 1, "litecoin", 1000, "kernelcoin", 500, 2, "open"⟩], []⟩ 1 2 10
      = (⟨[⟨1, 0, 1000⟩, ⟨2, 1000, 1000⟩],
          [⟨1, 1, "litecoin", 1000, "kernelcoin", 500, 2, "open"⟩], []⟩,
         some (Error.msg "trade amount unavailable")) := by
  have h := executeTrade_seller_balance_gate float64
    ⟨[⟨1, 0, 1000⟩, ⟨2, 1000, 1000⟩],
      [⟨1, 1, "litecoin", 1000, "kernelcoin", 500, 2, "open"⟩], []⟩ 1 2 10
    ⟨1, 1, "litecoin", 1000, "kernelcoin", 500, 2, "open"⟩ ⟨1, 0, 1000⟩
    (by decide!) (by decide!) (by decide!) (by decide!)
  exact Prod.ext h.1 (h.2.2 ⟨2, 1000, 1000⟩ (by decide!) (by decide!))

/-! ## Withdrawals -/

/-- The row of account `v` after `UPDATE balances SET col = col + delta WHERE
user_id = u`. -/
theorem getUserBalance_adjustRows (s : Server) (col : String) (delta : ℚ) (u v : Int) :
    getUserBalance ⟨adjustRows s.balances col delta u, s.trades, s.trade_completions⟩ v
      = (getUserBalance s v).map
          (fun b => if b.UserID = u then b.adjust col delta else b) := by
  unfold getUserBalance
  exact find?_adjustRows s.balances col delta u v

/-- C22 (withdrawal debits only after a successful send).  In wallet mode,
for a withdrawal of litecoin or kernelcoin that passes the minimum, balance
and address checks: when the send (`SendToAddress` for kernelcoin, `PayTo`
for litecoin) returns an error the reply is the send failure and the state,
balances and transaction records included, is as it was; when it returns a
transaction id the reply carries that id, the user's balance in the coin is
lowered by exactly the amount, no other balance changes, and one `withdraw`
record with that id is appended. -/
theorem handleWithdraw_after_send (sendToAddress payTo : String → ℚ → Except String String)
    (w : WalletServer) (userID : Int) (coin : String) (amount : ℚ) (bal : Balance)
    (address : String)
    (hmode : w.noWallets = false)
    (hcoin : coin = "kernelcoin" ∨ coin = "litecoin")
    (hmin : ¬ amount < 1 / 1000)
    (hbal : getUserBalance w.db userID = some bal)
    (havail : ¬ coinBalance bal coin - reserved w.db userID coin < amount)
    (htotal : ¬ coinBalance bal coin < amount)
    (haddr : withdrawalAddr w.users userID coin = some address)
    (hne : address ≠ "") :
    (∀ e, (if coin = "kernelcoin" then sendToAddress address amount
            else payTo address amount) = .error e →
      handleWithdraw sendToAddress payTo w userID coin amount
        = (w, WithdrawReply.sendFailed)) ∧
    (∀ txid, (if coin = "kernelcoin" then sendToAddress address amount
            else payTo address amount) = .ok txid →
      (handleWithdraw sendToAddress payTo w userID coin amount).2
        = WithdrawReply.sent txid ∧
      getUserBalance (handleWithdraw sendToAddress payTo w userID coin amount).1.db userID
        = some (if coin = "litecoin"
            then ⟨userID, bal.Litecoin - amount, bal.Kernelcoin⟩
            else ⟨userID, bal.Litecoin, bal.Kernelcoin - amount⟩) ∧
      (∀ v, v ≠ userID →
        getUserBalance (handleWithdraw sendToAddress payTo w userID coin amount).1.db v
          = getUserBalance w.db v) ∧
      (handleWithdraw sendToAddress payTo w userID coin amount).1.transactions
        = w.transactions ++ [⟨userID, coin, amount, "withdraw", "completed", some txid⟩]) := by
  have hcol : coin = "litecoin" ∨ coin = "kernelcoin" := hcoin.symm
  have hsupported : (coin == "kernelcoin" || coin == "litecoin") = true := by
    rcases hcoin with h | h <;> simp [h]
  have hu := getUserBalance_UserID hbal
  constructor
  · intro e he
    unfold handleWithdraw
    simp only [hmin, if_false, hbal, havail, htotal, haddr, hne, hmode, hsupported,
      Bool.not_false, Bool.and_self, if_true, he]
  · intro txid htx
    have hrun : handleWithdraw sendToAddress payTo w userID coin amount
        = (⟨⟨adjustRows w.db.balances coin (-amount) userID, w.db.trades,
              w.db.trade_completions⟩, w.users,
            w.transactions ++ [⟨userID, coin, amount, "withdraw", "completed", some txid⟩],
            w.noWallets⟩, WithdrawReply.sent txid) := by
      unfold handleWithdraw
      simp only [hmin, if_false, hbal, havail, htotal, haddr, hne, hmode, hsupported,
        Bool.not_false, Bool.and_self, if_true, htx,
        updateBalance_column _ _ _ _ hcol, logWithdrawal]
    rw [hrun]
    refine ⟨rfl, ?_, ?_, rfl⟩
    · simp only
      rw [getUserBalance_adjustRows, hbal]
      obtain ⟨bU, bL, bK⟩ := bal
      simp only at hu
      subst hu
      by_cases hl : coin = "litecoin" <;> simp [Balance.adjust, hl] <;> ring
    · intro v hv
      simp only
      rw [getUserBalance_adjustRows]
      cases hfv : getUserBalance w.db v with
      | none => rfl
      | some b =>
        have hb' : b.UserID = v := getUserBalance_UserID hfv
        simp [hb', hv]

/-- An instance of C22 on the seeded tables, with a kernelcoin wallet that
answers with the id `tx1` and an Electrum wallet that fails: the litecoin
withdrawal changes nothing, the kernelcoin withdrawal of 10 leaves account 1
with 990 kernelcoin and one record carrying `tx1`. -/
theorem handleWithdraw_after_send_witness :
    handleWithdraw (fun _ _ => .ok "tx1") (fun _ _ => .error "down") walletDemo 1
        "litecoin" 10 = (walletDemo, WithdrawReply.sendFailed) ∧
    (handleWithdraw (fun _ _ => .ok "tx1") (fun _ _ => .error "down") walletDemo 1
        "kernelcoin" 10).2 = WithdrawReply.sent "tx1" ∧
    getUserBalance (handleWithdraw (fun _ _ => .ok "tx1") (fun _ _ => .error "down")
        walletDemo 1 "kernelcoin" 10).1.db 1 = some ⟨1, 1000, 990⟩ ∧
    (handleWithdraw (fun _ _ => .ok "tx1") (fun _ _ => .error "down") walletDemo 1
        "kernelcoin" 10).1.transactions
      = [⟨1, "kernelcoin", 10, "withdraw", "completed", some "tx1"⟩] := by
  have h1 := (handleWithdraw_after_send (fun _ _ => .ok "tx1") (fun _ _ => .error "down")
    walletDemo 1 "litecoin" 10 ⟨1, 1000, 1000⟩ "LTCaddr1" rfl (by decide) (by decide!)
    (by decide!) (by decide!) (by decide!) (by decide) (by decide)).1 "down" (by decide)
  have h2 := (handleWithdraw_after_send (fun _ _ => .ok "tx1") (fun _ _ => .error "down")
    walletDemo 1 "kernelcoin" 10 ⟨1, 1000, 1000⟩ "KCNaddr1" rfl (by decide) (by decide!)
    (by decide!) (by decide!) (by decide!) (by decide) (by decide)).2 "tx1" (by decide)
  have hne : ¬ ("kernelcoin" = "litecoin") := by decide
  refine ⟨h1, h2.1, ?_, ?_⟩
  · rw [h2.2.1]
    norm_num [hne]
  · rw [h2.2.2.2]
    rfl

/-- The rounded running sum of non-negative terms is non-negative, for a
rounding that is monotone and keeps 0. -/
theorem foldl_fl_nonneg (fl : ℚ → ℚ) (hmono : Monotone fl) (hzero : fl 0 = 0)
    (l : List ℚ) (acc : ℚ) (hacc : 0 ≤ acc) (h : ∀ x ∈ l, 0 ≤ x) :
    0 ≤ l.foldl (fun a x => fl (a + x)) acc := by
  induction l generalizing acc with
  | nil => exact hacc
  | cons x l ih =>
    simp only [List.foldl_cons]
    apply ih
    · have hx := h x (List.mem_cons_self x l)
      have := hmono (add_nonneg hacc hx)
      rwa [hzero] at this
    · exact fun y hy => h y (List.mem_cons_of_mem x hy)

/-- Local `reserved` of `handleWithdraw` written as one rounded running sum
over the rows of `trades`. -/
theorem reservedFl_eq (fl : ℚ → ℚ) (s : Server) (userID : Int) (coin : String) :
    reservedFl fl s userID coin
      = ((s.trades.filter (fun t => t.seller_id == userID && t.status == "open"
            && t.coin_selling == coin)).map (fun t => t.amount_selling)).foldl
          (fun acc x => fl (acc + x)) 0 := by
  unfold reservedFl
  rw [List.filter_filter, List.foldl_map]
  congr 2
  funext t
  exact Bool.and_comm _ _

/-- Reply of `handleWithdraw` once the three amount checks have passed: it is
none of the three rejections of those checks. -/
theorem handleWithdrawFl_past_checks (fl : ℚ → ℚ)
    (sendToAddress payTo : String → ℚ → Except String String)
    (w : WalletServer) (userID : Int) (coin : String) (amount : ℚ) (bal : Balance)
    (hbal : getUserBalance w.db userID = some bal)
    (hmin : ¬ amount < fl (1 / 1000))
    (havail : ¬ fl (coinBalance bal coin - reservedFl fl w.db userID coin) < amount)
    (htotal : ¬ coinBalance bal coin < amount) :
    (handleWithdrawFl fl sendToAddress payTo w userID coin amount).2
        ≠ WithdrawReply.belowMinimum ∧
    (handleWithdrawFl fl sendToAddress payTo w userID coin amount).2
        ≠ WithdrawReply.insufficientAvailable ∧
    (handleWithdrawFl fl sendToAddress payTo w userID coin amount).2
        ≠ WithdrawReply.insufficientBalance := by
  unfold handleWithdrawFl
  simp only [hmin, if_false, hbal, havail, htotal]
  repeat' split
  all_goals simp

theorem adjustFl_UserID (fl : ℚ → ℚ) (b : Balance) (col : String) (delta : ℚ) :
    (b.adjustFl fl col delta).UserID = b.UserID := by
  unfold Balance.adjustFl
  split <;> rfl

/-- The row of account `v` after `UPDATE balances SET col = col + delta WHERE
user_id = u`, the sum rounded. -/
theorem getUserBalance_adjustRowsFl (fl : ℚ → ℚ) (s : Server) (col : String)
    (delta : ℚ) (u v : Int) :
    getUserBalance ⟨adjustRowsFl fl s.balances col delta u, s.trades,
        s.trade_completions⟩ v
      = (getUserBalance s v).map
          (fun b => if b.UserID = u then b.adjustFl fl col delta else b) := by
  unfold getUserBalance adjustRowsFl
  apply find?_map_key
  intro a
  by_cases h : a.UserID = u <;> simp [h, adjustFl_UserID]

/-- C30 (withdrawal acceptance condition), the request on which the claim as
stated fails.  Account 1 of `roundingDemo` holds 1 kernelcoin and has one open
order, which sells `2 ^ (-60)` kernelcoin, so that `R` is `2 ^ (-60)`.  The
withdrawal of 1 kernelcoin is accepted, because the float64 difference
`1 - 2 ^ (-60)` is 1, and leaves the balance 0, which is below `R`. -/
theorem handleWithdraw_leaves_less_than_reserved :
    getUserBalance roundingDemo.db 1 = some ⟨1, 1000, 1⟩ ∧
    roundingDemo.db.trades
      = [⟨1, 1, "kernelcoin", pow2 (-60), "litecoin", 1, pow2 60, "open"⟩] ∧
    ((roundingDemo.db.trades.filter (fun t => t.seller_id == 1 && t.status == "open"
        && t.coin_selling == "kernelcoin")).map (fun t => t.amount_selling)).foldl
      (fun acc x => float64 (acc + x)) 0 = pow2 (-60) ∧
    float64 (1 - pow2 (-60)) = 1 ∧
    (handleWithdrawFl float64 (fun _ _ => .error "off") (fun _ _ => .error "off")
      roundingDemo 1 "kernelcoin" 1).2 = WithdrawReply.submitted ∧
    getUserBalance
      (handleWithdrawFl float64 (fun _ _ => .error "off") (fun _ _ => .error "off")
        roundingDemo 1 "kernelcoin" 1).1.db 1 = some ⟨1, 1000, 0⟩ ∧
    (0 : ℚ) < pow2 (-60) := by
  decide!

/-- C30 (withdrawal acceptance condition), amended.  For a withdrawal of
litecoin or kernelcoin by an account with a balance row whose open orders
have non-negative `amount_selling`, in arithmetic rounded by a monotone `fl`
that keeps 0 and the stored balance, with `balance` the stored balance of the
coin and `R` the running sum of `amount_selling` over the account's open
orders selling that coin: `handleWithdraw` passes its three amount checks
exactly when `amount` is at least the constant `0.001` and at most the
difference `balance - R`; the reply is never `Insufficient balance`; and in
no-wallets mode an accepted request with a withdrawal address set is answered
with success, replaces the balance of the coin by the difference
`balance - amount`, which is not negative, and changes no other balance. -/
theorem handleWithdraw_acceptance (fl : ℚ → ℚ) (hmono : Monotone fl) (hzero : fl 0 = 0)
    (sendToAddress payTo : String → ℚ → Except String String)
    (w : WalletServer) (userID : Int) (coin : String) (amount : ℚ) (bal : Balance)
    (hcoin : coin = "litecoin" ∨ coin = "kernelcoin")
    (hbal : getUserBalance w.db userID = some bal)
    (hrep : fl (coinBalance bal coin) = coinBalance bal coin)
    (hR : ∀ t ∈ w.db.trades, t.seller_id = userID → t.status = "open" →
      0 ≤ t.amount_selling) :
    let R := ((w.db.trades.filter (fun t => t.seller_id == userID && t.status == "open"
        && t.coin_selling == coin)).map (fun t => t.amount_selling)).foldl
      (fun acc x => fl (acc + x)) 0
    (((handleWithdrawFl fl sendToAddress payTo w userID coin amount).2
          ≠ WithdrawReply.belowMinimum ∧
        (handleWithdrawFl fl sendToAddress payTo w userID coin amount).2
          ≠ WithdrawReply.insufficientAvailable ∧
        (handleWithdrawFl fl sendToAddress payTo w userID coin amount).2
          ≠ WithdrawReply.insufficientBalance) ↔
      (fl (1 / 1000) ≤ amount ∧ amount ≤ fl (coinBalance bal coin - R))) ∧
    (handleWithdrawFl fl sendToAddress payTo w userID coin amount).2
      ≠ WithdrawReply.insufficientBalance ∧
    (w.noWallets = true →
      fl (1 / 1000) ≤ amount → amount ≤ fl (coinBalance bal coin - R) →
      ∀ address, withdrawalAddr w.users userID coin = some address → address ≠ "" →
        (handleWithdrawFl fl sendToAddress payTo w userID coin amount).2
          = WithdrawReply.submitted ∧
        getUserBalance
          (handleWithdrawFl fl sendToAddress payTo w userID coin amount).1.db userID
          = some (if coin = "litecoin"
              then ⟨userID, fl (bal.Litecoin - amount), bal.Kernelcoin⟩
              else ⟨userID, bal.Litecoin, fl (bal.Kernelcoin - amount)⟩) ∧
        (∀ v, v ≠ userID →
          getUserBalance
            (handleWithdrawFl fl sendToAddress payTo w userID coin amount).1.db v
            = getUserBalance w.db v) ∧
        0 ≤ fl (coinBalance bal coin - amount)) := by
  intro R
  have hReq : reservedFl fl w.db userID coin = R := reservedFl_eq fl w.db userID coin
  have hRnn : 0 ≤ R := by
    apply foldl_fl_nonneg fl hmono hzero _ _ (le_refl 0)
    intro x hx
    simp only [List.mem_map, List.mem_filter, Bool.and_eq_true, beq_iff_eq] at hx
    obtain ⟨t, ⟨ht, ⟨hs, ho⟩, -⟩, rfl⟩ := hx
    exact hR t ht hs ho
  have hle : fl (coinBalance bal coin - R) ≤ coinBalance bal coin := by
    have := hmono (sub_le_self (coinBalance bal coin) hRnn)
    rwa [hrep] at this
  have hu := getUserBalance_UserID hbal
  refine ⟨⟨?_, ?_⟩, ?_, ?_⟩
  · intro hpass
    by_cases hmin : amount < fl (1 / 1000)
    · exfalso
      apply hpass.1
      unfold handleWithdrawFl
      simp only [hmin, if_true]
    · by_cases havail : fl (coinBalance bal coin - R) < amount
      · exfalso
        apply hpass.2.1
        unfold handleWithdrawFl
        simp only [hmin, if_false, hbal, hReq, havail, if_true]
      · exact ⟨not_lt.mp hmin, not_lt.mp havail⟩
  · intro hacc
    have hmin : ¬ amount < fl (1 / 1000) := not_lt.mpr hacc.1
    have havail : ¬ fl (coinBalance bal coin - reservedFl fl w.db userID coin) < amount := by
      rw [hReq]
      exact not_lt.mpr hacc.2
    have htotal : ¬ coinBalance bal coin < amount := not_lt.mpr (le_trans hacc.2 hle)
    exact handleWithdrawFl_past_checks fl sendToAddress payTo w userID coin amount bal
      hbal hmin havail htotal
  · by_cases hmin : amount < fl (1 / 1000)
    · unfold handleWithdrawFl
      simp only [hmin, if_true]
      simp
    · by_cases havail : fl (coinBalance bal coin - R) < amount
      · unfold handleWithdrawFl
        simp only [hmin, if_false, hbal, hReq, havail, if_true]
        simp
      · have havail' : ¬ fl (coinBalance bal coin - reservedFl fl w.db userID coin)
            < amount := by
          rw [hReq]
          exact havail
        have htotal : ¬ coinBalance bal coin < amount :=
          not_lt.mpr (le_trans (not_lt.mp havail) hle)
        exact (handleWithdrawFl_past_checks fl sendToAddress payTo w userID coin amount
          bal hbal hmin havail' htotal).2.2
  · intro hmode h1 h2 address haddr hne
    have hmin : ¬ amount < fl (1 / 1000) := not_lt.mpr h1
    have havail : ¬ fl (coinBalance bal coin - R) < amount := not_lt.mpr h2
    have hamt : amount ≤ coinBalance bal coin := le_trans h2 hle
    have htotal : ¬ coinBalance bal coin < amount := not_lt.mpr hamt
    have hrun : handleWithdrawFl fl sendToAddress payTo w userID coin amount
        = (⟨⟨adjustRowsFl fl w.db.balances coin (-amount) userID, w.db.trades,
              w.db.trade_completions⟩, w.users,
            w.transactions ++ [⟨userID, coin, amount, "withdraw", "completed", none⟩],
            w.noWallets⟩, WithdrawReply.submitted) := by
      unfold handleWithdrawFl
      simp only [hmin, if_false, hbal, hReq, havail, htotal, haddr, hne, hmode,
        Bool.not_true, Bool.false_and, Bool.false_eq_true, if_true,
        updateBalanceFl_column _ _ _ _ _ hcoin, logWithdrawal]
    rw [hrun]
    refine ⟨rfl, ?_, ?_, ?_⟩
    · simp only
      rw [getUserBalance_adjustRowsFl, hbal]
      obtain ⟨bU, bL, bK⟩ := bal
      simp only at hu
      subst hu
      by_cases hl : coin = "litecoin" <;>
        simp [Balance.adjustFl, hl, sub_eq_add_neg]
    · intro v hv
      simp only
      rw [getUserBalance_adjustRowsFl]
      cases hfv : getUserBalance w.db v with
      | none => rfl
      | some b =>
        have hb' : b.UserID = v := getUserBalance_UserID hfv
        simp [hb', hv]
    · have := hmono (sub_nonneg.mpr hamt)
      rwa [hzero] at this

/-- An instance of C30 in no-wallets mode and float64 arithmetic: in scenario 1
A holds 900 kernelcoin with 100 reserved; a withdrawal of 800 is accepted and
leaves 100, and the reply to a withdrawal of 850 is not
`Insufficient balance`. -/
theorem handleWithdraw_acceptance_witness :
    (handleWithdrawFl float64 (fun _ _ => .error "off") (fun _ _ => .error "off")
      { walletDemo with db := scenario1, noWallets := true } 1 "kernelcoin" 800).2
      = WithdrawReply.submitted ∧
    getUserBalance
      (handleWithdrawFl float64 (fun _ _ => .error "off") (fun _ _ => .error "off")
        { walletDemo with db := scenario1, noWallets := true } 1 "kernelcoin" 800).1.db 1
      = some ⟨1, 1000, 100⟩ ∧
    (handleWithdrawFl float64 (fun _ _ => .error "off") (fun _ _ => .error "off")
      { walletDemo with db := scenario1, noWallets := true } 1 "kernelcoin" 850).2
      ≠ WithdrawReply.insufficientBalance := by
  have h1 := (handleWithdraw_acceptance float64 float64_monotone float64_zero
    (fun _ _ => .error "off") (fun _ _ => .error "off")
    { walletDemo with db := scenario1, noWallets := true } 1 "kernelcoin" 800
    ⟨1, 1000, 900⟩ (by decide) (by decide!) (by decide!) (by decide!)).2.2 rfl
    (by decide!) (by decide!) "KCNaddr1" (by decide) (by decide)
  have h2 := (handleWithdraw_acceptance float64 float64_monotone float64_zero
    (fun _ _ => .error "off") (fun _ _ => .error "off")
    { walletDemo with db := scenario1, noWallets := true } 1 "kernelcoin" 850
    ⟨1, 1000, 900⟩ (by decide) (by decide!) (by decide!) (by decide!)).2.1
  have hval : (if "kernelcoin" = "litecoin"
      then (⟨1, float64 ((⟨1, 1000, 900⟩ : Balance).Litecoin - 800),
        (⟨1, 1000, 900⟩ : Balance).Kernelcoin⟩ : Balance)
      else ⟨1, (⟨1, 1000, 900⟩ : Balance).Litecoin,
        float64 ((⟨1, 1000, 900⟩ : Balance).Kernelcoin - 800)⟩)
      = ⟨1, 1000, 100⟩ := by decide!
  refine ⟨h1.1, ?_, h2⟩
  rw [h1.2.1]
  exact congrArg some hval

/-! ## The user name pattern -/

theorem fullMatch_empty (text : List Char) : Regex.fullMatch Regex.empty text = false := by
  unfold Regex.fullMatch
  induction text with
  | nil => rfl
  | cons c l ih => simpa [List.foldl_cons, Regex.deriv] using ih

theorem fullMatch_cons (r : Regex) (c : Char) (l : List Char) :
    r.fullMatch (c :: l) = (r.deriv c).fullMatch l := rfl

theorem fullMatch_alt (r₁ r₂ : Regex) (text : List Char) :
    (Regex.alt r₁ r₂).fullMatch text = (r₁.fullMatch text || r₂.fullMatch text) := by
  induction text generalizing r₁ r₂ with
  | nil => rfl
  | cons c l ih =>
    rw [fullMatch_cons, fullMatch_cons, fullMatch_cons]
    exact ih _ _

theorem fullMatch_cat_empty (r : Regex) (text : List Char) :
    (Regex.cat Regex.empty r).fullMatch text = false := by
  induction text with
  | nil => rfl
  | cons c l ih =>
    rw [fullMatch_cons]
    simpa [Regex.deriv, Regex.nullable] using ih

/-- After the first character of the class the pattern accepts exactly the
texts made of characters of the class. -/
theorem fullMatch_cat_eps_star (ranges : List (Char × Char)) (text : List Char) :
    (Regex.cat Regex.eps (Regex.star (Regex.cls ranges))).fullMatch text
      = text.all (inRanges ranges) := by
  induction text with
  | nil => rfl
  | cons c l ih =>
    rw [fullMatch_cons]
    simp only [Regex.deriv, Regex.nullable, if_true, List.all_cons]
    rw [fullMatch_alt, fullMatch_cat_empty, Bool.false_or]
    by_cases hc : inRanges ranges c = true
    · simp only [hc, if_true, Bool.true_and]
      exact ih
    · simp only [hc, if_false, Bool.false_eq_true]
      rw [fullMatch_cat_empty]
      simp [hc]

theorem fullMatch_plus_cls (ranges : List (Char × Char)) (text : List Char) :
    (Regex.plus (Regex.cls ranges)).fullMatch text
      = (!text.isEmpty && text.all (inRanges ranges)) := by
  cases text with
  | nil => rfl
  | cons c l =>
    unfold Regex.plus
    rw [fullMatch_cons]
    simp only [Regex.deriv, Regex.nullable, Bool.false_eq_true, if_false,
      List.isEmpty_cons, Bool.not_false, Bool.true_and, List.all_cons]
    by_cases hc : inRanges ranges c = true
    · simp only [hc, if_true, Bool.true_and]
      exact fullMatch_cat_eps_star ranges l
    · simp only [hc, if_false, Bool.false_eq_true]
      rw [fullMatch_cat_empty]
      simp [hc]

/-- C25.  `isValidAlphanumeric s` is true exactly when `s` is non-empty and
every character of `s` is a letter `a`-`z`, `A`-`Z` or a digit `0`-`9`; it is
false for the empty string and for every string that ends in a newline. -/
theorem isValidAlphanumeric_iff :
    (∀ s : String, isValidAlphanumeric s = true ↔
      (s ≠ "" ∧ ∀ c ∈ s.toList,
        ('a' ≤ c ∧ c ≤ 'z') ∨ ('A' ≤ c ∧ c ≤ 'Z') ∨ ('0' ≤ c ∧ c ≤ '9'))) ∧
    isValidAlphanumeric "" = false ∧
    (∀ s : String, isValidAlphanumeric (s ++ "\n") = false) := by
  have key : ∀ s : String, isValidAlphanumeric s = true ↔
      (s ≠ "" ∧ ∀ c ∈ s.toList,
        ('a' ≤ c ∧ c ≤ 'z') ∨ ('A' ≤ c ∧ c ≤ 'Z') ∨ ('0' ≤ c ∧ c ≤ '9')) := by
    intro s
    unfold isValidAlphanumeric
    rw [fullMatch_plus_cls]
    have hne : s ≠ "" ↔ s.toList ≠ [] := by
      constructor
      · intro h hl
        apply h
        apply String.ext
        simpa using hl
      · intro h hs
        apply h
        rw [hs]
        rfl
    rw [hne]
    simp only [Bool.and_eq_true, Bool.not_eq_true', List.isEmpty_eq_false,
      List.all_eq_true, inRanges, List.any_cons, List.any_nil, Bool.or_false,
      Bool.or_eq_true, decide_eq_true_eq, ne_eq]
  refine ⟨key, by decide, fun s => ?_⟩
  cases hv : isValidAlphanumeric (s ++ "\n") with
  | false => rfl
  | true =>
    exfalso
    have h := ((key _).mp hv).2 '\n' (by simp)
    revert h
    decide

/-! ## Passwords -/

/-- C24 (password round trip).  With Argon2id a function, for every password
and every 16-byte salt for which base64 decoding of the encoded salt returns
the salt without error and neither the encoded salt nor the encoded hash
contains a colon, `verifyPassword` accepts the string `hashPassword` builds
from the same password. -/
theorem verifyPassword_hashPassword (lib : Library) (password salt : List Nat)
    (_hlen : salt.length = 16)
    (hdec : lib.decodeString (lib.encodeToString salt) = (salt, false))
    (hsalt : ':' ∉ lib.encodeToString salt)
    (hhash : ':' ∉ lib.encodeToString (lib.idKey password salt)) :
    verifyPassword lib password (hashPassword lib salt password) = true := by
  have hsplit : (lib.encodeToString salt ++ [':']
        ++ lib.encodeToString (lib.idKey password salt)).splitOn ':'
      = [lib.encodeToString salt, lib.encodeToString (lib.idKey password salt)] := by
    have h : ([':'].intercalate
          [lib.encodeToString salt, lib.encodeToString (lib.idKey password salt)]).splitOn ':'
        = [lib.encodeToString salt, lib.encodeToString (lib.idKey password salt)] :=
      List.splitOn_intercalate
        [lib.encodeToString salt, lib.encodeToString (lib.idKey password salt)] ':'
        (by
          intro l hl
          simp only [List.mem_cons, List.mem_singleton, List.not_mem_nil, or_false] at hl
          rcases hl with rfl | rfl
          · exact hsalt
          · exact hhash)
        (by simp)
    simpa [List.intercalate] using h
  unfold verifyPassword hashPassword
  simp only [hdec, hsplit]
  simp

/-- An instance of the round trip with standard base64, the password `pass`
and the salt 0, 1, ..., 15. -/
theorem verifyPassword_hashPassword_witness :
    verifyPassword demoLibrary [112, 97, 115, 115]
      (hashPassword demoLibrary (List.range 16) [112, 97, 115, 115]) = true :=
  verifyPassword_hashPassword demoLibrary [112, 97, 115, 115] (List.range 16)
    (by decide) (by decide!) (by decide!) (by decide!)

/-! ## The trade history -/

/-- With unique keys, selecting the rows with the key of a stored row gives
that row alone. -/
theorem filter_key_eq_singleton {α : Type} (key : α → Int) (l : List α)
    (hnd : (l.map key).Nodup) (t : α) (ht : t ∈ l) :
    l.filter (fun x => key x == key t) = [t] := by
  induction l with
  | nil => cases ht
  | cons a l ih =>
    simp only [List.map_cons, List.nodup_cons, List.mem_map, not_exists, not_and] at hnd
    rcases List.mem_cons.mp ht with rfl | htl
    · have hrest : l.filter (fun x => key x == key t) = [] := by
        rw [List.filter_eq_nil_iff]
        intro x hx
        simp only [beq_iff_eq]
        exact hnd.1 x hx
      simp [List.filter_cons, hrest]
    · have hne : ¬ key a = key t := fun h => hnd.1 t htl h.symm
      simp only [List.filter_cons, beq_iff_eq, hne, if_false]
      exact ih hnd.2 htl

/-- A selection that yields exactly one related row per input row relates
the rows one to one, in order. -/
theorem forall₂_flatMap_singleton {α β : Type} (R : α → β → Prop) (f : α → List β)
    (l : List α) (h : ∀ x ∈ l, ∃ y, f x = [y] ∧ R x y) :
    List.Forall₂ R l (l.flatMap f) := by
  induction l with
  | nil => exact List.Forall₂.nil
  | cons a l ih =>
    obtain ⟨y, hy, hR⟩ := h a (List.mem_cons_self a l)
    rw [List.flatMap_cons, hy]
    exact List.Forall₂.cons hR (ih (fun x hx => h x (List.mem_cons_of_mem a hx)))

theorem forall₂_map_eq {α β : Type} (f : α → β) (l : List α) :
    List.Forall₂ (fun a b => b = f a) l (l.map f) := by
  induction l with
  | nil => exact List.Forall₂.nil
  | cons a l ih => exact List.Forall₂.cons rfl ih

/-- C23 (account order history).  With `id` unique in `trades` and in
`users`, every fill pointing to a stored order and every order to a stored
seller: `getUserTrades` returns, up to order, the rows of the two selections;
the first has exactly one entry per order whose seller is the account, with
the order's own fields and status and no counterparty; the second has exactly
one entry per fill whose buyer is the account, with status `completed`,
`coin_selling` the order's `coin_buying`, `coin_buying` the order's
`coin_selling`, `amount_selling` the fill quantity, `amount_buying` the
quantity times `price_per_unit` and the seller's username as counterparty;
and the list returned is ordered by timestamp, latest first. -/
theorem getUserTrades_entries (log : TradeLog) (userID : Int)
    (hids : (log.trades.map (fun t => t.1.id)).Nodup)
    (husers : (log.users.map (fun u => u.id)).Nodup)
    (hfill : ∀ tc ∈ log.trade_completions, ∃ t ∈ log.trades, t.1.id = tc.1.trade_id)
    (hseller : ∀ t ∈ log.trades, ∃ u ∈ log.users, u.id = t.1.seller_id) :
    (getUserTrades log userID).Perm (sellerRows log userID ++ buyerRows log userID) ∧
    List.Forall₂
      (fun t e => e = ⟨t.1.id, t.1.coin_selling, t.1.amount_selling, t.1.coin_buying,
        t.1.amount_buying, t.1.price_per_unit, t.1.amount_buying, t.1.status, t.2, none⟩)
      (log.trades.filter (fun t => t.1.seller_id == userID)) (sellerRows log userID) ∧
    List.Forall₂
      (fun tc e => ∃ t ∈ log.trades, ∃ u ∈ log.users,
        t.1.id = tc.1.trade_id ∧ u.id = t.1.seller_id ∧
        e = ⟨t.1.id, t.1.coin_buying, tc.1.quantity, t.1.coin_selling,
          tc.1.quantity * t.1.price_per_unit, t.1.price_per_unit,
          tc.1.quantity * t.1.price_per_unit, "completed", tc.2, some u.username⟩)
      (log.trade_completions.filter (fun tc => tc.1.buyer_id == userID))
      (buyerRows log userID) ∧
    (getUserTrades log userID).Pairwise (fun a b => b.created_at ≤ a.created_at) := by
  refine ⟨List.mergeSort_perm _ _, forall₂_map_eq _ _, ?_, ?_⟩
  · unfold buyerRows
    apply forall₂_flatMap_singleton
    intro tc htc
    have htc' : tc ∈ log.trade_completions := (List.mem_filter.mp htc).1
    obtain ⟨t, ht, hid⟩ := hfill tc htc'
    obtain ⟨u, hu, huid⟩ := hseller t ht
    have h1 : log.trades.filter (fun x => x.1.id == tc.1.trade_id) = [t] := by
      rw [← hid]
      exact filter_key_eq_singleton (fun x => x.1.id) log.trades hids t ht
    have h2 : log.users.filter (fun x => x.id == t.1.seller_id) = [u] := by
      rw [← huid]
      exact filter_key_eq_singleton (fun x => x.id) log.users husers u hu
    refine ⟨_, ?_, t, ht, u, hu, hid, huid, rfl⟩
    rw [h1]
    simp only [List.flatMap_cons, List.flatMap_nil, List.append_nil, h2, List.map_cons,
      List.map_nil]
  · unfold getUserTrades
    have hs : ((sellerRows log userID ++ buyerRows log userID).mergeSort
          (fun a b => decide (b.created_at ≤ a.created_at))).Pairwise
        (fun a b => decide (b.created_at ≤ a.created_at) = true) :=
      List.sorted_mergeSort
        (fun a b c hab hbc => by
          simp only [decide_eq_true_eq] at hab hbc ⊢
          omega)
        (fun a b => by
          simp only [Bool.or_eq_true, decide_eq_true_eq]
          omega)
        (sellerRows log userID ++ buyerRows log userID)
    exact hs.imp (fun h => by simpa using h)

/-- An instance of C23: the history of bob in the demonstration log is
ordered latest first and holds his fill and his order. -/
theorem getUserTrades_entries_witness :
    (getUserTrades demoLog 2).Pairwise (fun a b => b.created_at ≤ a.created_at) ∧
    (getUserTrades demoLog 2).Perm
      [⟨2, "litecoin", 30, "kernelcoin", 10, 3, 10, "open", 7, none⟩,
       ⟨1, "litecoin", 10, "kernelcoin", 20, 2, 20, "completed", 9, some "mike"⟩] := by
  have h := getUserTrades_entries demoLog 2 (by decide) (by decide) (by decide!)
    (by decide!)
  refine ⟨h.2.2.2, h.1.trans ?_⟩
  have hrows : sellerRows demoLog 2 ++ buyerRows demoLog 2
      = [⟨2, "litecoin", 30, "kernelcoin", 10, 3, 10, "open", 7, none⟩,
         ⟨1, "litecoin", 10, "kernelcoin", 20, 2, 20, "completed", 9, some "mike"⟩] := by
    decide!
  rw [hrows]

/-- C29 (history amounts match the transfer), evaluated.  A sells 100
kernelcoin for 200 litecoin (price 2) and B fills 10: `executeTrade` debits B
20 litecoin and credits B 10 kernelcoin.  The entry `getUserTrades` renders
for that fill has `coin_selling` litecoin with `amount_selling` 10 and
`coin_buying` kernelcoin with `amount_buying` 20: the two amounts are those
of the other coin. -/
theorem history_amounts_of_sell_order :
    (handleCreateTrade seeded 1 "kernelcoin" 100 "litecoin" 200).1.trades
      = [⟨1, 1, "kernelcoin", 100, "litecoin", 200, 2, "open"⟩] ∧
    (executeTrade (handleCreateTrade seeded 1 "kernelcoin" 100 "litecoin" 200).1
      1 2 10).2 = none ∧
    getUserBalance (handleCreateTrade seeded 1 "kernelcoin" 100 "litecoin" 200).1 2
      = some ⟨2, 1000, 1000⟩ ∧
    getUserBalance (executeTrade (handleCreateTrade seeded 1 "kernelcoin" 100
      "litecoin" 200).1 1 2 10).1 2 = some ⟨2, 980, 1010⟩ ∧
    buyerRows (logOf walletDemo.users (executeTrade (handleCreateTrade seeded 1
      "kernelcoin" 100 "litecoin" 200).1 1 2 10).1 5 9) 2
      = [⟨1, "litecoin", 10, "kernelcoin", 20, 2, 20, "completed", 9, some "mike"⟩] ∧
    getUserTrades (logOf walletDemo.users (executeTrade (handleCreateTrade seeded 1
      "kernelcoin" 100 "litecoin" 200).1 1 2 10).1 5 9) 2
      = [⟨1, "litecoin", 10, "kernelcoin", 20, 2, 20, "completed", 9, some "mike"⟩] := by
  decide!

end Exchange
